import Mathlib

/-!
# Topviews: view-state synchronisation and ranked list

A shallow embedding of `src/javascripts/topviews/topviews.js` and
`src/javascripts/topviews/config.js`.

* The `TopViews` instance and the parts of the page it reads and writes are one
  record, `TopViews`; every method is a function on that record.
* A method that can throw returns an `Outcome`, which keeps the state reached at
  the moment of the throw (JavaScript does not roll back).
* The exclude list of the record holds strings.  The one place where the code can
  put another value into it, an inherited member read from the plain object
  `normalizeMap`, ends the modelled run with the outcome `nonString`.
* Asynchronous requests are modelled by their completion callbacks: each callback
  is a function applied to the state current when the response arrives.
* Browser and library built-ins (`Date.parse`, `RegExp`, the clock, the site
  registry of `shared/site_map`) are the fields of `Env`.
-/

set_option autoImplicit false

namespace Topviews

/-! ## Configuration (`config.js`) -/

/-- The record `config.defaults`. -/
structure Defaults where
  dateRange : String
  daysAgo : Nat
  excludes : List String
  project : String
deriving DecidableEq

/-- The fields of `config` that the application logic reads. -/
structure Config where
  defaults : Defaults
  pageSize : Nat
deriving DecidableEq

/-- The value exported by `config.js`. -/
def config : Config :=
  { defaults := { dateRange := "last-month", daysAgo := 7, excludes := [], project := "en.wikipedia.org" },
    pageSize := 100 }

/-! ## Data -/

/-- One item of the ranking: `{article, views}`. -/
structure Page where
  article : String
  views : Nat
deriving DecidableEq

/-- One rendered `.topview-entry`: the `data-article-id` of its remove button, the
rank shown, the label and the view count.  The gradient width `100 * views / max`
is a floating-point function of `views` and of the baseline `max`, which the state
records; it is not a field of the row. -/
structure Row where
  articleId : Nat
  rank : Nat
  article : String
  views : Nat
deriving DecidableEq

/-- A calendar day, the value held by the datepicker. -/
structure Day where
  year : Nat
  month : Nat
  day : Nat
deriving DecidableEq

/-- The instance fields of `TopViews` together with the page elements it reads and
writes.  Elements that are only shown or hidden (spinner, `.expand-chart`,
`.data-links`, messages) are not tracked. -/
structure TopViews where
  /-- Field `this.config`. -/
  config : Config
  /-- Field `this.excludes`. -/
  excludes : List String
  /-- Field `this.offset`. -/
  offset : Nat
  /-- Field `this.max`: `none` is `null`. -/
  max : Option Nat
  /-- Field `this.pageData`. -/
  pageData : List Page
  /-- Field `this.pageNames`. -/
  pageNames : List String
  /-- Field `this.params`: `none` until it is first assigned. -/
  params : Option String
  /-- Truthiness of `this.specialRange` (`setSpecialRange` stores `true`). -/
  specialRange : Bool
  /-- Value of `$(config.projectInput)`. -/
  projectInput : String
  /-- Value of `$(config.platformSelector)`. -/
  platformSelector : String
  /-- Date held by the datepicker. -/
  datepicker : Day
  /-- The address bar, `location.search`. -/
  search : String
  /-- Children of `.chart-container`, in order. -/
  chart : List Row
  /-- Value of `#topviews_search_field`. -/
  searchField : String
  /-- Whether `.topviews-search-icon` carries `glyphicon-remove`. -/
  searchIconRemove : Bool
  /-- Whether the `change` listener of the article selector is attached. -/
  selectorBound : Bool
deriving DecidableEq

/-- A value that `filterByNamespace` pushes to its local array `excludes`: a string, or
the member of `Object.prototype` that the plain object `normalizeMap` inherits under
the given name (a function, or the prototype itself for `__proto__`). -/
inductive Value where
  | string (s : String)
  | inherited (key : String)
deriving DecidableEq

/-- Result of a method that may throw.  `typeError` and `syntaxError` carry the state
at the throw.  `nonString` is where the model stops: `addExclude` is called with
`values`, one of which is not a string, on the state `st`. -/
inductive Outcome where
  | ok (st : TopViews)
  | typeError (st : TopViews)
  | syntaxError (st : TopViews)
  | nonString (st : TopViews) (values : List Value)
deriving DecidableEq

/-- The state an outcome leaves behind. -/
def Outcome.state : Outcome → TopViews
  | .ok st => st
  | .typeError st => st
  | .syntaxError st => st
  | .nonString st _ => st

/-- Whether the method returned normally. -/
def Outcome.returned : Outcome → Bool
  | .ok _ => true
  | _ => false

/-- Sequencing: run `f` after a normal return, propagate anything else. -/
def Outcome.andThen (o : Outcome) (f : TopViews → Outcome) : Outcome :=
  match o with
  | .ok st => f st
  | other => other

/-- JavaScript `!max` for a value that is `null` or a number. -/
def falsy : Option Nat → Bool
  | none => true
  | some n => n == 0

/-! ## Strings and the query string -/

/-- Modelled from the spec: `String.prototype.descore` of the shared core extensions
is not in `src/`; the storage delimiter (underscore) is replaced with display
spacing. -/
def descore (s : String) : String :=
  String.mk (s.data.map (fun c => if c = '_' then ' ' else c))

/-- Modelled from the spec: `String.prototype.score`, the inverse direction of
`descore`: spaces are normalised to the underscore used for durable storage. -/
def score (s : String) : String :=
  String.mk (s.data.map (fun c => if c = ' ' then '_' else c))

/-- Modelled from the spec: `underscorePageNames` of the shared `Pv` class is not in
`src/`; every page name has its spaces normalised to underscores. -/
def underscorePageNames (pages : List String) : List String :=
  pages.map score

/-- JavaScript `Array.prototype.join`. -/
def join (sep : String) (xs : List String) : String :=
  String.mk (List.intercalate sep.data (xs.map String.data))

/-- The replacement `.replace(/[&%]/g, escape)`: `escape` maps `&` to `%26` and
`%` to `%25`. -/
def escapeAmpPct (s : String) : String :=
  String.mk (s.data.flatMap (fun c =>
    if c = '&' then ['%', '2', '6'] else if c = '%' then ['%', '2', '5'] else [c]))

/-- Upper-case hexadecimal digit. -/
def hexDigit (n : Nat) : Char :=
  if n < 10 then Char.ofNat (48 + n) else Char.ofNat (55 + n)

/-- UTF-8 encoding of one character. -/
def utf8Bytes (c : Char) : List Nat :=
  let n := c.toNat
  if n < 128 then [n]
  else if n < 2048 then [192 + n / 64, 128 + n % 64]
  else if n < 65536 then [224 + n / 4096, 128 + n / 64 % 64, 128 + n % 64]
  else [240 + n / 262144, 128 + n / 4096 % 64, 128 + n / 64 % 64, 128 + n % 64]

/-- Characters that `encodeURIComponent` leaves alone: letters, digits and
`- _ . ! ~ * ' ( )`. -/
def uriUnreserved (c : Char) : Bool :=
  c.isAlphanum || [45, 95, 46, 33, 126, 42, 39, 40, 41].contains c.toNat

/-- JavaScript `encodeURIComponent`. -/
def encodeURIComponent (s : String) : String :=
  String.mk (s.data.flatMap (fun c =>
    if uriUnreserved c then [c]
    else (utf8Bytes c).flatMap (fun b => ['%', hexDigit (b / 16), hexDigit (b % 16)])))

/-- The replacement `.replace(/%20/g, "+")` that `jQuery.param` applies. -/
def plusForSpace : List Char → List Char
  | '%' :: '2' :: '0' :: rest => '+' :: plusForSpace rest
  | c :: rest => c :: plusForSpace rest
  | [] => []

/-- The library function `jQuery.param` on a flat object: each value that is `null` or
`undefined` (`none`) is written as the empty string, keys and values go through
`encodeURIComponent`, the pairs are joined with `&`. -/
def param (obj : List (String × Option String)) : String :=
  String.mk (plusForSpace (join "&" (obj.map (fun kv =>
    encodeURIComponent kv.1 ++ "=" ++ encodeURIComponent (kv.2.getD "")))).data)

/-- Two decimal digits, zero padded. -/
def pad2 (n : Nat) : List Char :=
  [Nat.digitChar (n / 10 % 10), Nat.digitChar (n % 10)]

/-- The formatting `moment(date).format('YYYY-MM-DD')`. -/
def formatDate (d : Day) : String :=
  String.mk (pad2 (d.year / 100) ++ pad2 d.year ++ ['-'] ++ pad2 d.month ++ ['-'] ++ pad2 d.day)

/-- Method `getParams(specialRange = true)`: the object `{project, platform, date}` in
key order.  `setSpecialRange` assigns the boolean `true` to `this.specialRange`, so
`this.specialRange.range` is `undefined` (`none`). -/
def getParams (st : TopViews) (specialRange : Bool) : List (String × Option String) :=
  [("project", some st.projectInput),
   ("platform", some st.platformSelector),
   ("date", if st.specialRange && specialRange then none else some (formatDate st.datepicker))]

/-- Method `pushParams`: the address bar is replaced by the serialised input.  The
`href` of `.permalink` is not tracked. -/
def pushParams (st : TopViews) : TopViews :=
  let excludes := escapeAmpPct (join "|" (underscorePageNames st.excludes))
  { st with search := "?" ++ param (getParams st true) ++ "&excludes=" ++ excludes }

/-! ## `drawData` -/

/-- The `while` loop of `drawData`, on the part of `pageData` from `index` on.
`index` is the position of the item read (`index - 1` after `index++`); `count` is
the number of rows rendered so far.  Reading past the end gives `undefined`, and
`item.article` then throws: the result is `false` with the rows and `max` reached. -/
def drawLoop (limit : Nat) (excludes : List String) :
    List Page → Nat → Nat → Option Nat → List Row → Bool × Option Nat × List Row
  | [], count, _, max, chart =>
    if count < limit then (false, max, chart) else (true, max, chart)
  | item :: rest, count, index, max, chart =>
    if count < limit then
      if excludes.contains item.article then
        drawLoop limit excludes rest count (index + 1) max chart
      else
        drawLoop limit excludes rest (count + 1) (index + 1)
          (if falsy max then some item.views else max)
          (chart ++ [{ articleId := index, rank := count + 1,
                       article := item.article, views := item.views }])
    else (true, max, chart)

/-- Method `drawData`: empty `.chart-container`, render rows until
`pageSize + offset` of them are shown, then `pushParams`. -/
def drawData (st : TopViews) : Outcome :=
  match drawLoop (st.config.pageSize + st.offset) st.excludes st.pageData 0 0 st.max [] with
  | (true, max, chart) => .ok (pushParams { st with max := max, chart := chart })
  | (false, max, chart) => .typeError { st with max := max, chart := chart }

/-! ## Environment -/

/-- Built-ins and collaborators outside `src/`: the site registry
(`shared/site_map`), `Date.parse` (`none` is `NaN`), the two dates that
`setSpecialRange` computes from the clock, and the constructor
`new RegExp(pattern, flags)`: `none` when it throws `SyntaxError` because the
pattern is malformed, else the function `test` of the expression. -/
structure Env where
  siteDomains : List String
  dateParse : String → Option Day
  lastMonth : Day
  yesterday : Day
  regExp : String → String → Option (String → Bool)

/-! ## Excludes -/

/-- The loop of `addExclude`: `pages.forEach(page => ...)` pushes every page that
`this.excludes` does not include yet. -/
def pushNew (excludes pages : List String) : List String :=
  pages.foldl (fun acc page => if acc.contains page then acc else acc ++ [page]) excludes

/-- The argument of `addExclude`: one title or an array of titles. -/
inductive Pages where
  | one (page : String)
  | many (pages : List String)
deriving DecidableEq

/-- The coercion `if (!Array.isArray(pages)) pages = [pages]`. -/
def Pages.toArray : Pages → List String
  | .one page => [page]
  | .many pages => pages

/-- The `change` listener that `setupArticleSelector` attaches: `val` is
`$(e.target).val() || []`. -/
def articleSelectorChange (st : TopViews) (val : List String) : Outcome :=
  drawData { st with excludes := val, max := none }

/-- Method `addExclude(pages, triggerChange)`.  The options of the selector are rebuilt
from `this.excludes` and all of them selected, so the `change` event it triggers
carries `this.excludes` as the value; the event reaches the listener only once
`setupArticleSelector` has attached it. -/
def addExclude (st : TopViews) (pages : Pages) (triggerChange : Bool) : Outcome :=
  let st1 := { st with excludes := pushNew st.excludes pages.toArray }
  if triggerChange && st1.selectorBound then articleSelectorChange st1 st1.excludes
  else .ok st1

/-- The click listener that `drawData` attaches to `.topview-entry--remove`; `none`
when `articleId` is not an index of `pageNames` (no rendered row carries such an id). -/
def removeClick (st : TopViews) (articleId : Nat) : Option Outcome :=
  (st.pageNames[articleId]?).map (fun pageName =>
    (addExclude st (.one pageName) true).andThen (fun s => .ok (pushParams s)))

/-- The click listener of `.expand-chart` (in `setupListeners`). -/
def expandChart (st : TopViews) : Outcome :=
  drawData { st with offset := st.offset + st.config.pageSize }

/-! ## Search -/

/-- The `forEach` of `searchTopviews`: every non-excluded entry raises `count`; for each
of them `new RegExp(query, 'i')` is built, which throws on a malformed pattern
(`none`); a matching entry is pushed with `rank = count` and `index` its position.
(The two fields are also written into the entry object itself, which nothing reads.) -/
def searchLoop (env : Env) (query : String) (excludes : List String) :
    List Page → Nat → Nat → Option (List Row)
  | [], _, _ => some []
  | entry :: rest, count, index =>
    if !excludes.contains entry.article then
      match env.regExp query "i" with
      | none => none
      | some test =>
        if test entry.article then
          (searchLoop env query excludes rest (count + 1) (index + 1)).map (fun matched =>
            { articleId := index, rank := count + 1, article := entry.article,
              views := entry.views } :: matched)
        else searchLoop env query excludes rest (count + 1) (index + 1)
    else searchLoop env query excludes rest count (index + 1)

/-- Method `clearSearch`. -/
def clearSearch (st : TopViews) : Outcome :=
  if st.searchIconRemove then
    drawData { st with searchField := "", searchIconRemove := false }
  else .ok st

/-- Method `searchTopviews`: the query is the value of the search field.  When the
pattern is malformed the `forEach` throws at the first non-excluded entry, before
the chart is emptied. -/
def searchTopviews (env : Env) (st : TopViews) : Outcome :=
  if st.searchField = "" then clearSearch st
  else
    match searchLoop env st.searchField st.excludes st.pageData 0 0 with
    | some matched => .ok { st with chart := matched, searchIconRemove := true }
    | none => .syntaxError st

/-- The click listener that `searchTopviews` attaches to `.topview-entry--remove`. -/
def removeClickSearch (env : Env) (st : TopViews) (articleId : Nat) : Option Outcome :=
  (st.pageNames[articleId]?).map (fun pageName =>
    (addExclude st (.one pageName) true).andThen (searchTopviews env))

/-! ## Resetting and input -/

/-- Method `setupArticleSelector`: attaches the `change` listener. -/
def setupArticleSelector (st : TopViews) : TopViews :=
  { st with selectorBound := true }

/-- Method `resetArticleSelector`: detaches the listener, empties the selector and
sets it up again. -/
def resetArticleSelector (st : TopViews) : TopViews :=
  setupArticleSelector { st with selectorBound := false }

/-- Method `resetView(clearSelector)`. -/
def resetView (st : TopViews) (clearSelector : Bool) : TopViews :=
  let st1 := { st with max := none, offset := 0, pageData := [], pageNames := [], chart := [] }
  if clearSelector then { resetArticleSelector st1 with excludes := [] } else st1

/-- Method `validateProject`: `true` when the project is not in the site registry, in
which case the view has been reset. -/
def validateProject (env : Env) (st : TopViews) : TopViews × Bool :=
  if env.siteDomains.contains st.projectInput then (st, false)
  else (resetView st true, true)

/-- Method `setSpecialRange(range)`; `none` is `undefined`. -/
def setSpecialRange (env : Env) (st : TopViews) (range : Option String) : TopViews × Bool :=
  if range = some "last-month" then
    ({ st with datepicker := env.lastMonth, specialRange := true }, true)
  else if range = some "yesterday" then
    ({ st with datepicker := env.yesterday, specialRange := true }, true)
  else (st, false)

/-- Method `setDate(dateInput)`; `Date.parse(undefined)` is `NaN`. -/
def setDate (env : Env) (st : TopViews) (dateInput : Option String) : TopViews :=
  match dateInput.bind env.dateParse with
  | none =>
    let r := setSpecialRange env st dateInput
    if r.2 then r.1 else (setSpecialRange env r.1 (some st.config.defaults.dateRange)).1
  | some date => { st with datepicker := date }

/-- The object returned by `parseQueryString('excludes')`; `none` is an absent key. -/
structure QueryParams where
  project : Option String
  platform : Option String
  date : Option String
  excludes : Option (List String)
deriving DecidableEq

/-- JavaScript `value || fallback` for a string that may be `undefined`. -/
def orElse (value : Option String) (fallback : String) : String :=
  match value with
  | some v => if v = "" then fallback else v
  | none => fallback

/-- Method `popParams` up to the call of `initData`, on the parsed query string.  The
flag tells whether `initData` was called. -/
def popParams (env : Env) (st : TopViews) (params : QueryParams) : TopViews × Bool :=
  let st1 := { st with projectInput := orElse params.project st.config.defaults.project }
  let v := validateProject env st1
  if v.2 then (v.1, false)
  else
    let st2 := setDate env st1 params.date
    let st3 := { st2 with platformSelector := orElse params.platform "all-access" }
    let excludes :=
      match params.excludes with
      | none => st3.config.defaults.excludes
      | some [e] => if e = "" then st3.config.defaults.excludes else [descore e]
      | some es => es.map descore
    ({ st3 with excludes := excludes, params := some st3.search }, true)

/-- The continuation of `popParams`: `setupArticleSelector(); drawData();
setupListeners()`. -/
def popParamsThen (st : TopViews) : Outcome :=
  drawData (setupArticleSelector st)

/-- Method `processInput(force)` up to the call of `initData`.  The flag tells whether
`resetView` and `initData` were called; the continuation of the fetch is `drawData`. -/
def processInput (st : TopViews) (force : Bool) : TopViews × Bool :=
  let st1 := pushParams st
  if st1.params = some st1.search && !force then (st1, false)
  else (resetView { st1 with params := some st1.search } false, true)

/-! ## Fetching -/

/-- How an asynchronous request ends: `done` with the parsed response, or `fail`. -/
inductive Ajax (α : Type) where
  | done (data : α)
  | fail

/-- One entry of `query.normalized`: the fields `from` and `to`. -/
structure NormEntry where
  from_ : String
  to_ : String
deriving DecidableEq

/-- One value of the object `query.pages`: `ns` and `missing` are `none` when the key
is absent. -/
structure PageInfo where
  title : String
  ns : Option Int
  missing : Option String
deriving DecidableEq

/-- The object `query.general`. -/
structure General where
  mainpage : String
deriving DecidableEq

/-- The object `data.query` of the page-metadata response; `pages` lists the values of
`query.pages` in the order of `Object.keys`. -/
structure Query where
  normalized : Option (List NormEntry)
  pages : Option (List PageInfo)
  general : Option General
deriving DecidableEq

/-- What the `done` callback of the ranking request leaves to happen: the deferred is
resolved with `pageData`, or the namespace lookup is issued for `titles`. -/
inductive FetchStep where
  | resolved (pageData : List Page)
  | lookup (titles : List String)
deriving DecidableEq

/-- The `done` callback of the ranking request in `initData`; `articles` is
`data.items[0].articles`. -/
def initDataDone (st : TopViews) (articles : List Page) : TopViews × FetchStep :=
  let pageData : List Page :=
    articles.map (fun page => { page with article := descore page.article })
  let st1 : TopViews :=
    { st with pageData := pageData, pageNames := pageData.map (fun page => page.article) }
  if st1.excludes.length ≠ 0 then (st1, .resolved st1.pageData)
  else (st1, .lookup (st1.pageNames.take 30))

/-- Names of the members that a plain object inherits from `Object.prototype`. -/
def objectPrototypeKeys : List String :=
  ["constructor", "hasOwnProperty", "isPrototypeOf", "propertyIsEnumerable", "toLocaleString",
   "toString", "valueOf", "__defineGetter__", "__defineSetter__", "__lookupGetter__",
   "__lookupSetter__", "__proto__"]

/-- What reading `object[key]` of a plain object gives: an own property, an inherited
member of `Object.prototype`, or `undefined`. -/
inductive Member where
  | own (value : String)
  | inherited (key : String)
  | undefined
deriving DecidableEq

/-- The assignment `object[key] = value` of a string on a plain object whose own
properties are `m`, read from the front: assigning a string to `__proto__` creates
no property. -/
def setMember (m : List (String × String)) (key value : String) : List (String × String) :=
  if key = "__proto__" then m else (key, value) :: m

/-- The read `object[key]` of a plain object with own properties `m`. -/
def getMember (m : List (String × String)) (key : String) : Member :=
  match m.lookup key with
  | some value => .own value
  | none => if objectPrototypeKeys.contains key then .inherited key else .undefined

/-- The expression `normalizedTitle || title`: an inherited member is truthy, an empty
string and `undefined` are not. -/
def orTitle (normalizedTitle : Member) (title : String) : Value :=
  match normalizedTitle with
  | .own value => if value = "" then .string title else .string value
  | .inherited key => .inherited key
  | .undefined => .string title

/-- The own properties of `normalizeMap` after `normalizeMap[entry.to] = entry.from`
for every entry: a later entry wins. -/
def normalizeMapOf (normalized : List NormEntry) : List (String × String) :=
  normalized.foldl (fun m entry => setMember m entry.to_ entry.from_) []

/-- The `forEach` over `Object.keys(data.query.pages)` in `filterByNamespace`. -/
def filterLoop (ns : Int) :
    List PageInfo → List (String × String) → List Value → List Value
  | [], _, excludes => excludes
  | page :: rest, normalizeMap, excludes =>
    if page.ns ≠ some ns || page.missing = some "" then
      filterLoop ns rest (normalizeMap.filter (fun kv => kv.1 ≠ page.title))
        (excludes ++ [orTitle (getMember normalizeMap page.title) page.title])
    else filterLoop ns rest normalizeMap excludes

/-- The strings of a list of values, when all of them are strings. -/
def titlesOf : List Value → Option (List String)
  | [] => some []
  | .string s :: rest => (titlesOf rest).map (fun titles => s :: titles)
  | .inherited _ :: _ => none

/-- The `always` callback of the lookup in `filterByNamespace(pages, ns)`.  On failure
`data` is the request object, which has no `query`.  Reading `mainpage` of an absent
`query.general` throws.  A run in which an inherited member was pushed ends with
`nonString`. -/
def filterByNamespaceAlways (st : TopViews) (ns : Int) (data : Ajax (Option Query)) : Outcome :=
  match data with
  | .done (some query) =>
    match query.pages with
    | some pages =>
      match query.general with
      | some general =>
        let excludes :=
          filterLoop ns pages (normalizeMapOf (query.normalized.getD [])) [.string general.mainpage]
        match titlesOf excludes with
        | some titles => addExclude st (.many titles) true
        | none => .nonString st excludes
      | none => .typeError st
    | none => .ok st
  | _ => .ok st

/-- Method `initData` for given ends of its two requests: the state left behind and
the value the returned deferred is resolved with (`none`: it is never resolved).
`filterByNamespace` returns the promise of the request itself, so the `done`
callback that resolves the deferred runs only when the lookup succeeded and the
`always` callback before it returned.  A run that ended with `nonString` is not
followed further. -/
def initData (st : TopViews) (primary : Ajax (List Page)) (lookup : Ajax (Option Query)) :
    Outcome × Option (List Page) :=
  match primary with
  | .fail => (.ok st, none)
  | .done articles =>
    match initDataDone st articles with
    | (st1, .resolved pageData) => (.ok st1, some pageData)
    | (st1, .lookup _) =>
      match lookup, filterByNamespaceAlways st1 0 lookup with
      | .done _, .ok st2 => (.ok st2, some st2.pageData)
      | _, o => (o, none)

/-- A fetch started by `processInput(force)` and run to its end: the continuation
`drawData` runs only when the deferred of `initData` is resolved. -/
def processInputThen (st : TopViews) (primary : Ajax (List Page)) (lookup : Ajax (Option Query)) :
    Outcome :=
  match initData st primary lookup with
  | (.ok st1, some _) => drawData st1
  | (o, _) => o

/-! ## Specification-side views -/

/-- The non-excluded entries of `pageData`, each with its position. -/
def survivors (pageData : List Page) (excludes : List String) : List (Nat × Page) :=
  pageData.enum.filter (fun e => !excludes.contains e.2.article)

/-- The visible entry of the `i`-th survivor (`i` from zero): rank `i + 1`. -/
def rowOf (e : Nat × Nat × Page) : Row :=
  { articleId := e.2.1, rank := e.1 + 1, article := e.2.2.article, views := e.2.2.views }

/-- Dense ranks over the entire non-excluded sequence, in source order. -/
def rankedRows (pageData : List Page) (excludes : List String) : List Row :=
  (survivors pageData excludes).enum.map rowOf

/-- The rows of the survivors of a suffix of `pageData` that starts at position
`index`, when `count` rows precede them. -/
def rowsFrom (excludes : List String) (rest : List Page) (count index : Nat) : List Row :=
  (((rest.enumFrom index).filter (fun e => !excludes.contains e.2.article)).enumFrom count).map rowOf

/-- The titles of a list, each kept at its first occurrence only. -/
def firstOccurrences : List String → List String
  | [] => []
  | a :: l => a :: (firstOccurrences l).filter (fun b => b ≠ a)

/-- Whether the namespace lookup flags a page: not in the main namespace, or reported
missing. -/
def flagged (page : PageInfo) : Bool :=
  page.ns ≠ some 0 || page.missing = some ""

/-- The title originally requested for a returned title: the `from` of the
normalization entry whose `to` is the returned title, else the returned title. -/
def requestedTitle (normalized : List NormEntry) (title : String) : String :=
  match normalized.reverse.find? (fun entry => entry.to_ = title) with
  | some entry => entry.from_
  | none => title

/-- The baseline after rendering rows with the given view counts in order: `max` is
assigned at a row whenever it is still `null` or zero. -/
def baseline (max : Option Nat) (views : List Nat) : Option Nat :=
  views.foldl (fun m v => if falsy m then some v else m) max

/-- The exclude list the namespace lookup is to leave when it starts from an empty
one: the main page, then the requested title of every flagged page, each title once. -/
def seededExcludes (normalized : List NormEntry) (pages : List PageInfo) (mainpage : String) :
    List String :=
  firstOccurrences
    (mainpage :: (pages.filter flagged).map (fun p => requestedTitle normalized p.title))

/-! ## Scenarios -/

/-- The state the constructor leaves, on a page whose address bar and datepicker hold
the given values. -/
def initial (search : String) (datepicker : Day) : TopViews where
  config := config
  excludes := []
  offset := 0
  max := none
  pageData := []
  pageNames := []
  params := none
  specialRange := false
  projectInput := ""
  platformSelector := ""
  datepicker := datepicker
  search := search
  chart := []
  searchField := ""
  searchIconRemove := false
  selectorBound := false

/-- Value of a decimal digit. -/
def digitValue (c : Char) : Option Nat :=
  if c.isDigit then some (c.toNat - 48) else none

/-- A `Date.parse` that accepts the form `YYYY-MM-DD` written by `getParams` and takes
every other string as unparseable. -/
def isoDate (s : String) : Option Day :=
  match s.data with
  | [y1, y2, y3, y4, '-', m1, m2, '-', d1, d2] => do
    let a ← digitValue y1
    let b ← digitValue y2
    let c ← digitValue y3
    let d ← digitValue y4
    let m ← (digitValue m1).bind (fun h => (digitValue m2).map (fun l => 10 * h + l))
    let e ← (digitValue d1).bind (fun h => (digitValue d2).map (fun l => 10 * h + l))
    if 1 ≤ m ∧ m ≤ 12 ∧ 1 ≤ e ∧ e ≤ 31 then
      some { year := 1000 * a + 100 * b + 10 * c + d, month := m, day := e }
    else none
  | _ => none

/-- Case-insensitive substring test: what `new RegExp(query, 'i').test(title)` computes
for a query without pattern metacharacters. -/
def containsIgnoreCase (query title : String) : Bool :=
  (title.data.map Char.toLower).tails.any
    (fun suffix => (query.data.map Char.toLower).isPrefixOf suffix)

/-- Case-sensitive substring test. -/
def containsExactly (query title : String) : Bool :=
  title.data.tails.any (fun suffix => query.data.isPrefixOf suffix)

/-- A `RegExp` constructor for the scenarios.  A pattern of letters, digits and spaces
denotes itself and compiles to the substring test, case-insensitive under the flag
`i`.  The pattern `(` is malformed and the constructor throws.  This environment
implements no other pattern and rejects them all in the same way. -/
def literalRegExp (pattern flags : String) : Option (String → Bool) :=
  if pattern.data.all (fun c => c.isAlphanum || c = ' ') then
    some (if flags.data.contains 'i' then containsIgnoreCase pattern
          else containsExactly pattern)
  else none

/-- An environment whose clock reads 15 June 2016. -/
def june2016 : Env where
  siteDomains := ["en.wikipedia.org", "de.wikipedia.org", "commons.wikimedia.org"]
  dateParse := isoDate
  lastMonth := { year := 2016, month := 5, day := 5 }
  yesterday := { year := 2016, month := 6, day := 14 }
  regExp := literalRegExp

/-- A ranking of `n` pages titled `a0`, ..., `a9`, `b0`, ... with views `1000`, `999`, ... -/
def ranking (n : Nat) : List Page :=
  (List.range n).map (fun i =>
    { article := String.mk [Char.ofNat (97 + i / 10), Char.ofNat (48 + i % 10)],
      views := 1000 - i })

/-- A freshly fetched ranking of 101 pages, no excludes, selector listening. -/
def fetched : TopViews :=
  { (initDataDone (setupArticleSelector (initial "" { year := 2016, month := 5, day := 5 }))
      (ranking 101)).1 with
    projectInput := "en.wikipedia.org", platformSelector := "all-access" }

/-- The scenario of the specification: ranking `A 100, B 80, C 80, D 1` with `B`
excluded, page size 100, offset 0. -/
def fourPages : TopViews :=
  { initial "" { year := 2016, month := 5, day := 5 } with
    excludes := ["B"],
    pageData := [{ article := "A", views := 100 }, { article := "B", views := 80 },
                 { article := "C", views := 80 }, { article := "D", views := 1 }],
    pageNames := ["A", "B", "C", "D"] }

/-- A page-metadata response for a ranking that starts `a0`, `a1`: `a0` is the main
page and `a1` lies outside the main namespace. -/
def lookupResponse : Query where
  normalized := none
  pages := some [{ title := "a0", ns := some 0, missing := none },
                 { title := "a1", ns := some 1, missing := none },
                 { title := "a2", ns := some 0, missing := none }]
  general := some { mainpage := "a0" }

/-- The parsed query string of a page opened without parameters. -/
def noParams : QueryParams where
  project := none
  platform := none
  date := none
  excludes := none

/-- The page opened on the bare address, up to the call of `initData`. -/
def opened : TopViews :=
  (popParams june2016 (initial "" { year := 2016, month := 6, day := 15 }) noParams).1

/-- The page opened on the bare address and rendered: the ranking of 102 pages has
arrived, the namespace lookup has seeded the excludes, the chart is drawn. -/
def openedRendered : TopViews :=
  (match initData opened (.done (ranking 102)) (.done (some lookupResponse)) with
   | (.ok st, some _) => popParamsThen st
   | (o, _) => o).state

/-- The page opened with `?date=yesterday`, up to the call of `initData`. -/
def openedYesterday : TopViews :=
  (popParams june2016 (initial "?date=yesterday" { year := 2016, month := 6, day := 15 })
    { noParams with date := some "yesterday" }).1

/-- The scenario of the specification: among the looked-up titles only `Talk:X` lies
outside the main namespace. -/
def talkResponse : Query where
  normalized := none
  pages := some [{ title := "Earth", ns := some 0, missing := none },
                 { title := "Main Page", ns := some 0, missing := none },
                 { title := "Talk:X", ns := some 1, missing := none }]
  general := some { mainpage := "Main Page" }

/-- A response with a normalised title and a missing page. -/
def normalizedResponse : Query where
  normalized := some [{ from_ := "talk:x y", to_ := "Talk:X y" }]
  pages := some [{ title := "Earth", ns := some 0, missing := none },
                 { title := "Talk:X y", ns := some 1, missing := none },
                 { title := "Nope", ns := some 0, missing := some "" }]
  general := some { mainpage := "Main Page" }

/-- The rendered page after the user has emptied the exclude selector. -/
def cleared : TopViews :=
  (articleSelectorChange openedRendered []).state

/-- The page after the platform was then changed to `desktop`: the ranking was fetched
again, the namespace lookup seeded the excludes, the chart was drawn. -/
def reloaded : TopViews :=
  (processInputThen (processInput { cleared with platformSelector := "desktop" } true).1
    (.done (ranking 102)) (.done (some lookupResponse))).state

/-- The page opened on the bare address, rendered, and fetched once more by an
unforced `processInput`. -/
def settled : TopViews :=
  (processInputThen (processInput openedRendered false).1
    (.done (ranking 102)) (.done (some lookupResponse))).state

/-- The parsed query string of `?project=&platform=bogus`. -/
def bogusPlatform : QueryParams where
  project := some ""
  platform := some "bogus"
  date := none
  excludes := none

/-- The parsed query string of
`?project=bogus.org&platform=desktop&date=yesterday&excludes=A_B`. -/
def bogusProject : QueryParams where
  project := some "bogus.org"
  platform := some "desktop"
  date := some "yesterday"
  excludes := some ["A_B"]

/-- A page whose platform selector shows `all-access` before `popParams` runs. -/
def unopened : TopViews :=
  { initial "" { year := 2016, month := 6, day := 15 } with platformSelector := "all-access" }

/-- Fetch A: on the cleared page the platform is changed to `desktop` and
`processInput` has started the fetch. -/
def startedA : TopViews :=
  (processInput { cleared with platformSelector := "desktop" } true).1

/-- Fetch B: while A is in flight the platform is changed to `mobile-web` and
`processInput` has started a second fetch. -/
def startedB : TopViews :=
  (processInput { startedA with platformSelector := "mobile-web" } true).1

/-- The ranking fetch B receives: pages `a5`, `a6`, ... with views `995`, `994`, ... -/
def rankingB : List Page :=
  (ranking 110).drop 5

/-- The page-metadata response to the lookup of fetch B: `a5` is the main page and
`a6` lies outside the main namespace. -/
def lookupResponseB : Query where
  normalized := none
  pages := some [{ title := "a5", ns := some 0, missing := none },
                 { title := "a6", ns := some 2, missing := none }]
  general := some { mainpage := "a5" }

/-- Fetch B completed and drawn, the callbacks of A not run. -/
def bAlone : TopViews :=
  (processInputThen startedB (.done rankingB) (.done (some lookupResponseB))).state

/-- Fetch B completed first, then the callbacks of fetch A ran. -/
def bThenA : TopViews :=
  (processInputThen bAlone (.done (ranking 102)) (.done (some lookupResponse))).state

/-- The callbacks of fetch A ran first (after B was started), then those of B. -/
def aThenB : TopViews :=
  (processInputThen
    (processInputThen startedB (.done (ranking 102)) (.done (some lookupResponse))).state
    (.done rankingB) (.done (some lookupResponseB))).state

/-- A response in which the missing page `constructor` bears the name of a member of
`Object.prototype`. -/
def prototypeResponse : Query where
  normalized := none
  pages := some [{ title := "Earth", ns := some 0, missing := none },
                 { title := "constructor", ns := some 0, missing := some "" }]
  general := some { mainpage := "Main Page" }

/-! ## Lemmas on the ranked rows -/

theorem rowsFrom_nil (ex : List String) (count index : Nat) : rowsFrom ex [] count index = [] := rfl

theorem rowsFrom_cons_excluded (ex : List String) (item : Page) (rest : List Page) (count index : Nat)
    (h : ex.contains item.article = true) :
    rowsFrom ex (item :: rest) count index = rowsFrom ex rest count (index + 1) := by
  have h2 : item.article ∈ ex := by simpa using h
  simp [rowsFrom, List.enumFrom_cons, List.filter_cons, h2]

theorem rowsFrom_cons_kept (ex : List String) (item : Page) (rest : List Page) (count index : Nat)
    (h : ex.contains item.article = false) :
    rowsFrom ex (item :: rest) count index =
      { articleId := index, rank := count + 1, article := item.article, views := item.views }
        :: rowsFrom ex rest (count + 1) (index + 1) := by
  have h2 : item.article ∉ ex := by simpa using h
  simp [rowsFrom, List.enumFrom_cons, List.filter_cons, h2, rowOf]

theorem rankedRows_eq_rowsFrom (pd : List Page) (ex : List String) :
    rankedRows pd ex = rowsFrom ex pd 0 0 := rfl

theorem survivors_map_snd (pd : List Page) (ex : List String) :
    (survivors pd ex).map Prod.snd = pd.filter (fun p => !ex.contains p.article) := by
  have h := List.filter_map (f := (Prod.snd : Nat × Page → Page))
    (p := fun p => !ex.contains p.article) (l := pd.enum)
  rw [List.enum_map_snd] at h
  rw [h]
  rfl

theorem map_enum_snd {α β : Type} (g : α → β) (l : List α) :
    l.enum.map (fun x => g x.2) = l.map g := by
  show l.enum.map (g ∘ Prod.snd) = l.map g
  rw [← List.map_map, List.enum_map_snd]

theorem rankedRows_pages (pd : List Page) (ex : List String) :
    (rankedRows pd ex).map (fun r => ({ article := r.article, views := r.views } : Page))
      = pd.filter (fun p => !ex.contains p.article) := by
  rw [← survivors_map_snd]
  simp only [rankedRows, rowOf, List.map_map, Function.comp_def]
  exact map_enum_snd (fun e : Nat × Page => e.2) (survivors pd ex)

theorem rankedRows_length (pd : List Page) (ex : List String) :
    (rankedRows pd ex).length = (pd.filter (fun p => !ex.contains p.article)).length := by
  rw [← rankedRows_pages, List.length_map]

theorem rankedRows_rank (pd : List Page) (ex : List String) (i : Nat)
    (h : i < (rankedRows pd ex).length) : ((rankedRows pd ex)[i]).rank = i + 1 := by
  simp [rankedRows, rowOf]

theorem rankedRows_mem (pd : List Page) (ex : List String) (r : Row) (h : r ∈ rankedRows pd ex) :
    pd[r.articleId]? = some { article := r.article, views := r.views } ∧ r.article ∉ ex := by
  simp only [rankedRows, List.mem_map] at h
  obtain ⟨⟨i, e⟩, he, rfl⟩ := h
  have hs : e ∈ survivors pd ex := by
    obtain ⟨hi, he2⟩ := List.mem_enum he
    exact List.mem_iff_getElem.2 ⟨i, hi, he2.symm⟩
  simp only [survivors, List.mem_filter] at hs
  obtain ⟨hm, hk⟩ := hs
  have hg := (List.mk_mem_enum_iff_getElem? (i := e.1) (x := e.2) (l := pd)).1 hm
  refine ⟨by simpa [rowOf] using hg, ?_⟩
  simpa [rowOf] using hk

theorem rankedRows_ids (pd : List Page) (ex : List String) :
    ((rankedRows pd ex).map Row.articleId).Pairwise (fun a b => a < b) := by
  have h1 : (rankedRows pd ex).map Row.articleId = (survivors pd ex).map Prod.fst := by
    simp only [rankedRows, rowOf, List.map_map, Function.comp_def]
    exact map_enum_snd (fun e : Nat × Page => e.1) (survivors pd ex)
  rw [h1]
  have h2 : List.Sublist ((survivors pd ex).map Prod.fst) (pd.enum.map Prod.fst) :=
    List.Sublist.map _ (List.filter_sublist _)
  rw [List.enum_map_fst] at h2
  exact List.Pairwise.sublist h2 (List.pairwise_lt_range _)

theorem rowsFrom_rank (ex : List String) :
    ∀ (rest : List Page) (count index : Nat) (r : Row), r ∈ rowsFrom ex rest count index →
      index ≤ r.articleId ∧
      r.rank = count + 1 +
        ((rest.take (r.articleId - index)).filter (fun p => !ex.contains p.article)).length := by
  intro rest
  induction rest with
  | nil => intro count index r h; simp [rowsFrom_nil] at h
  | cons item rest ih =>
    intro count index r h
    by_cases hx : ex.contains item.article = true
    · rw [rowsFrom_cons_excluded ex item rest count index hx] at h
      obtain ⟨h1, h2⟩ := ih count (index + 1) r h
      have hd : r.articleId - index = (r.articleId - (index + 1)) + 1 := by omega
      refine ⟨by omega, ?_⟩
      rw [hd, List.take_succ_cons, List.filter_cons]
      simp only [hx, Bool.not_true, Bool.false_eq_true, if_false]
      exact h2
    · have hx2 : ex.contains item.article = false := by simpa using hx
      rw [rowsFrom_cons_kept ex item rest count index hx2] at h
      rcases List.mem_cons.1 h with h | h
      · subst h
        simp
      · obtain ⟨h1, h2⟩ := ih (count + 1) (index + 1) r h
        have hd : r.articleId - index = (r.articleId - (index + 1)) + 1 := by omega
        refine ⟨by omega, ?_⟩
        rw [hd, List.take_succ_cons, List.filter_cons]
        simp only [hx2, Bool.not_false, if_true, List.length_cons]
        omega

theorem rankedRows_rank_formula (pd : List Page) (ex : List String) (r : Row)
    (h : r ∈ rankedRows pd ex) :
    r.rank = 1 + ((pd.take r.articleId).filter (fun p => !ex.contains p.article)).length := by
  have := (rowsFrom_rank ex pd 0 0 r h).2
  simpa [Nat.add_comm] using this

/-! ## Lemmas on `drawData` -/

theorem drawLoop_chart (limit : Nat) (ex : List String) :
    ∀ (rest : List Page) (count index : Nat) (max : Option Nat) (chart : List Row),
      (drawLoop limit ex rest count index max chart).2.2
        = chart ++ (rowsFrom ex rest count index).take (limit - count) := by
  intro rest
  induction rest with
  | nil => intro count index max chart; simp [drawLoop, rowsFrom_nil]; split <;> rfl
  | cons item rest ih =>
    intro count index max chart
    by_cases hc : count < limit
    · by_cases hx : ex.contains item.article = true
      · simp only [drawLoop, hc, if_true, hx, ih, rowsFrom_cons_excluded ex item rest count index hx]
      · have hx2 : ex.contains item.article = false := by simpa using hx
        have hl : limit - count = (limit - (count + 1)) + 1 := by omega
        simp only [drawLoop, hc, if_true, hx2, Bool.false_eq_true, if_false,
          rowsFrom_cons_kept ex item rest count index hx2]
        rw [ih, hl, List.take_succ_cons]
        simp
    · have hl : limit - count = 0 := by omega
      simp [drawLoop, hc, hl]

theorem drawLoop_returned (limit : Nat) (ex : List String) :
    ∀ (rest : List Page) (count index : Nat) (max : Option Nat) (chart : List Row),
      (drawLoop limit ex rest count index max chart).1
        = decide (limit - count ≤ (rowsFrom ex rest count index).length) := by
  intro rest
  induction rest with
  | nil =>
    intro count index max chart
    by_cases hc : count < limit
    · have : ¬ limit - count = 0 := by omega
      simp [drawLoop, rowsFrom_nil, hc, this]
    · have : limit - count = 0 := by omega
      simp [drawLoop, rowsFrom_nil, hc, this]
  | cons item rest ih =>
    intro count index max chart
    by_cases hc : count < limit
    · by_cases hx : ex.contains item.article = true
      · simp only [drawLoop, hc, if_true, hx, ih, rowsFrom_cons_excluded ex item rest count index hx]
      · have hx2 : ex.contains item.article = false := by simpa using hx
        simp only [drawLoop, hc, if_true, hx2, Bool.false_eq_true, if_false,
          rowsFrom_cons_kept ex item rest count index hx2]
        rw [ih]
        simp only [List.length_cons, decide_eq_decide]
        omega
    · have hl : limit - count = 0 := by omega
      simp [drawLoop, hc, hl]

/-- The rows `drawData` leaves in the chart, whether it returns or throws. -/
theorem drawData_chart (st : TopViews) :
    (drawData st).state.chart
      = (rankedRows st.pageData st.excludes).take (st.config.pageSize + st.offset) := by
  have h := drawLoop_chart (st.config.pageSize + st.offset) st.excludes st.pageData 0 0 st.max []
  unfold drawData
  generalize drawLoop (st.config.pageSize + st.offset) st.excludes st.pageData 0 0 st.max [] = res at h
  obtain ⟨b, m, c⟩ := res
  cases b <;> simpa [Outcome.state, pushParams, rankedRows_eq_rowsFrom] using h

/-- Whether `drawData` returns: exactly when enough non-excluded entries exist. -/
theorem drawData_returned (st : TopViews) :
    (drawData st).returned
      = decide (st.config.pageSize + st.offset
          ≤ (st.pageData.filter (fun p => !st.excludes.contains p.article)).length) := by
  have h := drawLoop_returned (st.config.pageSize + st.offset) st.excludes st.pageData 0 0 st.max []
  rw [← rankedRows_eq_rowsFrom, rankedRows_length] at h
  unfold drawData
  generalize drawLoop (st.config.pageSize + st.offset) st.excludes st.pageData 0 0 st.max [] = res at h
  obtain ⟨b, m, c⟩ := res
  cases b <;> simpa [Outcome.returned] using h

/-- The fields `drawData` never writes. -/
theorem drawData_frame (st : TopViews) :
    (drawData st).state.pageData = st.pageData ∧ (drawData st).state.pageNames = st.pageNames ∧
    (drawData st).state.excludes = st.excludes ∧ (drawData st).state.offset = st.offset ∧
    (drawData st).state.config = st.config ∧ (drawData st).state.params = st.params ∧
    (drawData st).state.selectorBound = st.selectorBound := by
  unfold drawData
  generalize drawLoop (st.config.pageSize + st.offset) st.excludes st.pageData 0 0 st.max [] = res
  obtain ⟨b, m, c⟩ := res
  cases b <;> simp [Outcome.state, pushParams]

theorem drawData_eq_ok (st : TopViews) (h : (drawData st).returned = true) :
    drawData st = .ok (drawData st).state := by
  cases hd : drawData st with
  | ok s => rfl
  | typeError s => rw [hd] at h; simp [Outcome.returned] at h
  | syntaxError s => rw [hd] at h; simp [Outcome.returned] at h
  | nonString s v => rw [hd] at h; simp [Outcome.returned] at h

/-- The general form of the defect: `drawData` throws exactly when fewer than
`offset + pageSize` entries are not excluded. -/
theorem drawData_throws_iff (st : TopViews) :
    (drawData st).returned = false ↔
      (st.pageData.filter (fun p => !st.excludes.contains p.article)).length
        < st.config.pageSize + st.offset := by
  rw [drawData_returned]
  simp


/-! ## Lemmas on search -/

theorem searchLoop_eq (env : Env) (query : String) (ex : List String) (test : String → Bool)
    (hre : env.regExp query "i" = some test) :
    ∀ (rest : List Page) (count index : Nat),
      searchLoop env query ex rest count index
        = some ((rowsFrom ex rest count index).filter (fun r => test r.article)) := by
  intro rest
  induction rest with
  | nil => intro count index; simp [searchLoop, rowsFrom_nil]
  | cons entry rest ih =>
    intro count index
    by_cases hx : ex.contains entry.article = true
    · simp only [searchLoop, hx, Bool.not_true, Bool.false_eq_true, if_false, ih,
        rowsFrom_cons_excluded ex entry rest count index hx]
    · have hx2 : ex.contains entry.article = false := by simpa using hx
      have hx3 : entry.article ∉ ex := by simpa using hx2
      by_cases ht : test entry.article = true
      · simp [searchLoop, hx3, hre, ht, ih, rowsFrom_cons_kept ex entry rest count index hx2,
          List.filter_cons]
      · simp [searchLoop, hx3, hre, ht, ih, rowsFrom_cons_kept ex entry rest count index hx2,
          List.filter_cons]

/-- With a malformed pattern the `forEach` of `searchTopviews` throws as soon as it
meets an entry that is not excluded. -/
theorem searchLoop_malformed (env : Env) (query : String) (ex : List String)
    (hre : env.regExp query "i" = none) :
    ∀ (rest : List Page) (count index : Nat),
      searchLoop env query ex rest count index
        = if rowsFrom ex rest count index = [] then some [] else none := by
  intro rest
  induction rest with
  | nil => intro count index; simp [searchLoop, rowsFrom_nil]
  | cons entry rest ih =>
    intro count index
    by_cases hx : ex.contains entry.article = true
    · simp only [searchLoop, hx, Bool.not_true, Bool.false_eq_true, if_false, ih,
        rowsFrom_cons_excluded ex entry rest count index hx]
    · have hx2 : ex.contains entry.article = false := by simpa using hx
      have hx3 : entry.article ∉ ex := by simpa using hx2
      simp [searchLoop, hx3, hre, rowsFrom_cons_kept ex entry rest count index hx2]

/-- A malformed query on a ranking with a non-excluded entry: `searchTopviews` throws
and leaves the state as it was. -/
theorem searchTopviews_malformed (env : Env) (st : TopViews) (hq : st.searchField ≠ "")
    (hre : env.regExp st.searchField "i" = none)
    (hrows : rankedRows st.pageData st.excludes ≠ []) :
    searchTopviews env st = .syntaxError st := by
  have h := searchLoop_malformed env st.searchField st.excludes hre st.pageData 0 0
  rw [← rankedRows_eq_rowsFrom, if_neg hrows] at h
  simp [searchTopviews, hq, h]

theorem rankedRows_inj (pd : List Page) (ex : List String) (r r' : Row)
    (h : r ∈ rankedRows pd ex) (h' : r' ∈ rankedRows pd ex) (hid : r'.articleId = r.articleId) :
    r' = r := by
  have h1 := (rankedRows_mem pd ex r h).1
  have h2 := (rankedRows_mem pd ex r' h').1
  have h3 := rankedRows_rank_formula pd ex r h
  have h4 := rankedRows_rank_formula pd ex r' h'
  rw [hid] at h2 h4
  rw [h1] at h2
  have h5 : ({ article := r.article, views := r.views } : Page)
      = { article := r'.article, views := r'.views } := Option.some.inj h2
  cases r with
  | mk id rk a v =>
    cases r' with
    | mk id' rk' a' v' =>
      simp only [Page.mk.injEq] at h5
      simp only at hid h3 h4
      simp only [Row.mk.injEq]
      exact ⟨hid, by omega, h5.1.symm, h5.2.symm⟩

/-! ## Lemmas on `addExclude` -/

theorem firstOccurrences_filter (p : String → Bool) :
    ∀ l : List String, (firstOccurrences l).filter p = firstOccurrences (l.filter p) := by
  intro l
  induction l with
  | nil => rfl
  | cons a l ih =>
    by_cases hp : p a = true
    · simp only [firstOccurrences, List.filter_cons, hp, if_true]
      rw [← ih, List.filter_filter, List.filter_filter]
      congr 2
      funext b
      exact Bool.and_comm _ _
    · simp only [firstOccurrences, List.filter_cons, hp, if_false, Bool.false_eq_true]
      rw [← ih, List.filter_filter]
      apply List.filter_congr
      intro b hb
      by_cases hba : b = a
      · subst hba; simp [hp]
      · simp [hba]

theorem mem_firstOccurrences (t : String) :
    ∀ l : List String, t ∈ firstOccurrences l ↔ t ∈ l := by
  intro l
  induction l with
  | nil => simp [firstOccurrences]
  | cons a l ih =>
    simp only [firstOccurrences, List.mem_cons, List.mem_filter, ih]
    by_cases h : t = a <;> simp [h]

theorem firstOccurrences_nodup : ∀ l : List String, (firstOccurrences l).Nodup := by
  intro l
  induction l with
  | nil => simp [firstOccurrences]
  | cons a l ih =>
    simp only [firstOccurrences, List.nodup_cons]
    exact ⟨by simp [List.mem_filter], ih.filter _⟩

theorem firstOccurrences_sublist : ∀ l : List String, List.Sublist (firstOccurrences l) l := by
  intro l
  induction l with
  | nil => simp [firstOccurrences]
  | cons a l ih =>
    simp only [firstOccurrences]
    exact List.Sublist.cons₂ a ((List.filter_sublist _).trans ih)

theorem pushNew_eq : ∀ (pages acc : List String),
    pushNew acc pages = acc ++ firstOccurrences (pages.filter (fun p => !acc.contains p)) := by
  intro pages
  induction pages with
  | nil => intro acc; simp [pushNew, firstOccurrences]
  | cons p ps ih =>
    intro acc
    have hstep : pushNew acc (p :: ps)
        = pushNew (if acc.contains p then acc else acc ++ [p]) ps := by
      simp [pushNew]
    rw [hstep]
    by_cases hc : acc.contains p = true
    · simp only [hc, if_true, ih, List.filter_cons, Bool.not_true, Bool.false_eq_true, if_false]
    · have hc2 : acc.contains p = false := by simpa using hc
      simp only [hc2, Bool.false_eq_true, if_false, ih, List.filter_cons, Bool.not_false, if_true,
        firstOccurrences, firstOccurrences_filter, List.filter_filter, List.append_assoc,
        List.singleton_append]
      congr 3
      apply List.filter_congr
      intro b _
      by_cases hb : b = p
      · subst hb; simp
      · simp [hb]

theorem addExclude_excludes (st : TopViews) (pages : Pages) (trigger : Bool) :
    (addExclude st pages trigger).state.excludes = pushNew st.excludes pages.toArray := by
  unfold addExclude
  simp only
  split
  · unfold articleSelectorChange
    rw [(drawData_frame _).2.2.1]
  · rfl

/-! ## Lemmas on the namespace lookup -/

theorem normalizeMap_foldl_lookup (t : String) (ht : t ≠ "__proto__") :
    ∀ (l : List NormEntry) (acc : List (String × String)),
      (l.foldl (fun m entry => setMember m entry.to_ entry.from_) acc).lookup t
        = match l.reverse.find? (fun e => e.to_ = t) with
          | some e => some e.from_
          | none => acc.lookup t := by
  intro l
  induction l with
  | nil => intro acc; rfl
  | cons e l ih =>
    intro acc
    rw [List.foldl_cons, ih, List.reverse_cons, List.find?_append]
    cases hfind : l.reverse.find? (fun e => decide (e.to_ = t)) with
    | some e2 => rfl
    | none =>
      by_cases h : e.to_ = t
      · subst h
        simp [setMember, ht, List.lookup]
      · have h2 : (t == e.to_) = false := by
          simp only [beq_eq_false_iff_ne, ne_eq]
          exact fun h3 => h h3.symm
        by_cases hp : e.to_ = "__proto__"
        · simp [setMember, hp, h, hp ▸ h]
        · simp [setMember, hp, List.lookup, h, h2]

theorem normalizeMapOf_lookup (normalized : List NormEntry) (t : String) (ht : t ≠ "__proto__") :
    (normalizeMapOf normalized).lookup t
      = (normalized.reverse.find? (fun e => e.to_ = t)).map (fun e => e.from_) := by
  unfold normalizeMapOf
  rw [normalizeMap_foldl_lookup t ht]
  cases normalized.reverse.find? (fun e => decide (e.to_ = t)) <;> rfl

theorem lookup_filter_ne (t t0 : String) (h : t ≠ t0) :
    ∀ m : List (String × String),
      (m.filter (fun kv => kv.1 ≠ t0)).lookup t = m.lookup t := by
  intro m
  induction m with
  | nil => rfl
  | cons kv m ih =>
    obtain ⟨k, v⟩ := kv
    by_cases hk : k = t0
    · subst hk
      have h2 : (t == k) = false := by simpa using h
      simp only [List.filter_cons, List.lookup, h2, ne_eq, not_true_eq_false, decide_False,
        Bool.false_eq_true, if_false]
      exact ih
    · by_cases h3 : (t == k) = true
      · simp [List.filter_cons, hk, List.lookup, h3]
      · have h4 : (t == k) = false := by simpa using h3
        simp only [List.filter_cons, hk, List.lookup, h4, ne_eq, not_false_eq_true, decide_True,
          if_true]
        exact ih

theorem getMember_congr (m m0 : List (String × String)) (key : String)
    (h : m.lookup key = m0.lookup key) : getMember m key = getMember m0 key := by
  unfold getMember
  rw [h]

theorem filterLoop_eq (ns : Int) (m0 : List (String × String)) :
    ∀ (pages : List PageInfo) (m : List (String × String)) (acc : List Value),
      (pages.map (fun p => p.title)).Nodup →
      (∀ p ∈ pages, m.lookup p.title = m0.lookup p.title) →
      filterLoop ns pages m acc
        = acc ++ (pages.filter (fun p => p.ns ≠ some ns || p.missing = some "")).map
            (fun p => orTitle (getMember m0 p.title) p.title) := by
  intro pages
  induction pages with
  | nil => intro m acc _ _; simp [filterLoop]
  | cons page rest ih =>
    intro m acc hnd hm
    rw [List.map_cons, List.nodup_cons] at hnd
    have hrest : ∀ p ∈ rest, p.title ≠ page.title := by
      intro p hp heq
      exact hnd.1 (heq ▸ List.mem_map_of_mem (fun p => p.title) hp)
    by_cases hf : (decide (page.ns ≠ some ns) || decide (page.missing = some "")) = true
    · have hm2 : ∀ p ∈ rest,
          (m.filter (fun kv => kv.1 ≠ page.title)).lookup p.title = m0.lookup p.title := by
        intro p hp
        rw [lookup_filter_ne _ _ (hrest p hp)]
        exact hm p (List.mem_cons_of_mem _ hp)
      rw [filterLoop, if_pos hf, ih _ _ hnd.2 hm2, List.filter_cons, if_pos hf, List.map_cons,
        getMember_congr m m0 page.title (hm page (List.mem_cons_self _ _))]
      simp
    · have hm2 : ∀ p ∈ rest, m.lookup p.title = m0.lookup p.title :=
        fun p hp => hm p (List.mem_cons_of_mem _ hp)
      rw [filterLoop, if_neg hf, ih _ _ hnd.2 hm2, List.filter_cons, if_neg hf]

/-- For a title that names no member of `Object.prototype` the value pushed is the
requested title. -/
theorem orTitle_getMember_eq (normalized : List NormEntry) (title : String)
    (hFrom : ∀ e ∈ normalized, e.from_ ≠ "")
    (hProto : objectPrototypeKeys.contains title = false) :
    orTitle (getMember (normalizeMapOf normalized) title) title
      = .string (requestedTitle normalized title) := by
  have ht : title ≠ "__proto__" := by
    intro h
    rw [h] at hProto
    exact absurd hProto (by decide)
  unfold getMember
  rw [normalizeMapOf_lookup normalized title ht]
  unfold requestedTitle
  cases hfind : normalized.reverse.find? (fun e => e.to_ = title) with
  | none =>
    have hmem : title ∉ objectPrototypeKeys := by simpa using hProto
    simp [hmem, orTitle]
  | some e =>
    have he : e ∈ normalized := List.mem_reverse.1 (List.mem_of_find?_eq_some hfind)
    simp [orTitle, hFrom e he]

theorem titlesOf_strings : ∀ l : List String, titlesOf (l.map Value.string) = some l := by
  intro l
  induction l with
  | nil => rfl
  | cons a l ih => simp [titlesOf, ih]

theorem pushNew_nil (pages : List String) : pushNew [] pages = firstOccurrences pages := by
  rw [pushNew_eq]
  simp

/-! ## Lemmas on the baseline -/

theorem baseline_some (m : Nat) (hm : m ≠ 0) : ∀ views : List Nat, baseline (some m) views = some m := by
  intro views
  induction views with
  | nil => rfl
  | cons v views ih =>
    have hf : falsy (some m) = false := by simp [falsy, hm]
    simpa [baseline, hf] using ih

theorem baseline_none_cons (v : Nat) (hv : v ≠ 0) (views : List Nat) :
    baseline none (v :: views) = some v := by
  have h := baseline_some v hv views
  simpa [baseline, falsy] using h

theorem drawLoop_max (limit : Nat) (ex : List String) :
    ∀ (rest : List Page) (count index : Nat) (max : Option Nat) (chart : List Row),
      (drawLoop limit ex rest count index max chart).2.1
        = baseline max (((rowsFrom ex rest count index).take (limit - count)).map Row.views) := by
  intro rest
  induction rest with
  | nil => intro count index max chart; simp [drawLoop, rowsFrom_nil, baseline]; split <;> rfl
  | cons item rest ih =>
    intro count index max chart
    by_cases hc : count < limit
    · by_cases hx : ex.contains item.article = true
      · simp only [drawLoop, hc, if_true, hx, ih, rowsFrom_cons_excluded ex item rest count index hx]
      · have hx2 : ex.contains item.article = false := by simpa using hx
        have hl : limit - count = (limit - (count + 1)) + 1 := by omega
        simp only [drawLoop, hc, if_true, hx2, Bool.false_eq_true, if_false,
          rowsFrom_cons_kept ex item rest count index hx2]
        rw [ih, hl, List.take_succ_cons]
        simp [baseline]
    · have hl : limit - count = 0 := by omega
      simp [drawLoop, hc, hl, baseline]

/-- The baseline `drawData` leaves, whether it returns or throws. -/
theorem drawData_max (st : TopViews) :
    (drawData st).state.max
      = baseline st.max
          (((rankedRows st.pageData st.excludes).take (st.config.pageSize + st.offset)).map
            Row.views) := by
  have h := drawLoop_max (st.config.pageSize + st.offset) st.excludes st.pageData 0 0 st.max []
  unfold drawData
  generalize drawLoop (st.config.pageSize + st.offset) st.excludes st.pageData 0 0 st.max [] = res at h
  obtain ⟨b, m, c⟩ := res
  cases b <;> simpa [Outcome.state, pushParams, rankedRows_eq_rowsFrom] using h

/-! ## Lemmas on fetching and the guard -/

/-- A failed namespace lookup leaves the deferred of `initData` unresolved. -/
theorem initData_lookup_fail (st : TopViews) (articles : List Page) (h : st.excludes = []) :
    (initData st (.done articles) .fail).2 = none := by
  simp [initData, initDataDone, h, filterByNamespaceAlways]

/-- A successful lookup whose response lacks `query` or `query.pages` resolves the
deferred with the fetched ranking and adds no exclude. -/
theorem initData_lookup_without_pages (st : TopViews) (articles : List Page)
    (query : Option Query) (h : st.excludes = [])
    (hq : ∀ q, query = some q → q.pages = none) :
    (initData st (.done articles) (.done query)).2
        = some (articles.map (fun page => { page with article := descore page.article })) ∧
    (initData st (.done articles) (.done query)).1.state.excludes = [] := by
  cases query with
  | none => simp [initData, initDataDone, h, filterByNamespaceAlways, Outcome.state]
  | some q =>
    have := hq q rfl
    simp [initData, initDataDone, h, filterByNamespaceAlways, this, Outcome.state]

/-- The guard of `processInput`: when the address `pushParams` writes equals
`this.params` and the call is not forced, only the address bar is rewritten. -/
theorem processInput_guard (st : TopViews) (h : st.params = some (pushParams st).search) :
    processInput st false = (pushParams st, false) := by
  have hp : (pushParams st).params = st.params := rfl
  simp [processInput, hp, h]

/-! ## Facts about the scenarios -/

theorem settled_params :
    settled.params
      = some "?project=en.wikipedia.org&platform=all-access&date=&excludes=a0|a1" := by
  decide

theorem settled_pushParams :
    (pushParams settled).search
      = "?project=en.wikipedia.org&platform=all-access&date=&excludes=a0|a1" := by
  decide

/-- On the settled page the guard of `processInput` holds: no fetch is started. -/
theorem settled_guard : (processInput settled false).2 = false := by
  rw [processInput_guard settled (by rw [settled_params, settled_pushParams])]

/-! ## Lemmas on `popParams` -/

theorem orElse_some (p fallback : String) (h : p ≠ "") : orElse (some p) fallback = p := by
  simp [orElse, h]

theorem orElse_default (value : Option String) (fallback : String)
    (h : value = none ∨ value = some "") : orElse value fallback = fallback := by
  rcases h with h | h <;> simp [orElse, h]

/-- The fields `setSpecialRange` leaves alone. -/
theorem setSpecialRange_frame (env : Env) (st : TopViews) (range : Option String) :
    (setSpecialRange env st range).1.projectInput = st.projectInput ∧
    (setSpecialRange env st range).1.platformSelector = st.platformSelector ∧
    (setSpecialRange env st range).1.excludes = st.excludes ∧
    (setSpecialRange env st range).1.config = st.config ∧
    (setSpecialRange env st range).1.search = st.search := by
  unfold setSpecialRange
  split
  · simp
  · split <;> simp

/-- The fields `setDate` leaves alone. -/
theorem setDate_frame (env : Env) (st : TopViews) (dateInput : Option String) :
    (setDate env st dateInput).projectInput = st.projectInput ∧
    (setDate env st dateInput).platformSelector = st.platformSelector ∧
    (setDate env st dateInput).excludes = st.excludes ∧
    (setDate env st dateInput).config = st.config ∧
    (setDate env st dateInput).search = st.search := by
  have h1 := setSpecialRange_frame env st dateInput
  have h2 := setSpecialRange_frame env (setSpecialRange env st dateInput).1
    (some st.config.defaults.dateRange)
  unfold setDate
  cases dateInput.bind env.dateParse with
  | none =>
    simp only
    split
    · exact h1
    · exact ⟨h2.1.trans h1.1, h2.2.1.trans h1.2.1, h2.2.2.1.trans h1.2.2.1,
        h2.2.2.2.1.trans h1.2.2.2.1, h2.2.2.2.2.trans h1.2.2.2.2⟩
  | some d => simp

/-- A date that `Date.parse` rejects and that names no range selects `last-month`. -/
theorem setDate_default (env : Env) (st : TopViews) (dateInput : Option String)
    (hcfg : st.config = config)
    (h : dateInput = none ∨
      ∃ d, dateInput = some d ∧ env.dateParse d = none ∧ d ≠ "last-month" ∧ d ≠ "yesterday") :
    (setDate env st dateInput).datepicker = env.lastMonth ∧
    (setDate env st dateInput).specialRange = true := by
  rcases h with h | ⟨d, h, hp, h1, h2⟩
  · subst h
    simp [setDate, setSpecialRange, hcfg, config]
  · subst h
    simp [setDate, setSpecialRange, hcfg, config, hp, h1, h2]

/-- An invalid project: `popParams` resets the view and returns before it decodes the
platform, the date and the excludes. -/
theorem popParams_invalid_project (env : Env) (st : TopViews) (params : QueryParams)
    (h : env.siteDomains.contains (orElse params.project st.config.defaults.project) = false) :
    (popParams env st params).2 = false ∧
    (popParams env st params).1.projectInput = orElse params.project st.config.defaults.project ∧
    (popParams env st params).1.platformSelector = st.platformSelector ∧
    (popParams env st params).1.datepicker = st.datepicker ∧
    (popParams env st params).1.specialRange = st.specialRange ∧
    (popParams env st params).1.excludes = [] := by
  have h2 : orElse params.project st.config.defaults.project ∉ env.siteDomains := by
    simpa using h
  simp [popParams, validateProject, h2, resetView, resetArticleSelector, setupArticleSelector]

/-- A project of the site registry: `popParams` decodes the rest and calls `initData`. -/
theorem popParams_valid_project (env : Env) (st : TopViews) (params : QueryParams)
    (h : env.siteDomains.contains (orElse params.project st.config.defaults.project) = true) :
    (popParams env st params).2 = true ∧
    (popParams env st params).1.projectInput = orElse params.project st.config.defaults.project ∧
    (popParams env st params).1.platformSelector = orElse params.platform "all-access" ∧
    (popParams env st params).1.excludes =
      (match params.excludes with
       | none => st.config.defaults.excludes
       | some [e] => if e = "" then st.config.defaults.excludes else [descore e]
       | some es => es.map descore) ∧
    (popParams env st params).1.datepicker =
      (setDate env { st with projectInput := orElse params.project st.config.defaults.project }
        params.date).datepicker ∧
    (popParams env st params).1.specialRange =
      (setDate env { st with projectInput := orElse params.project st.config.defaults.project }
        params.date).specialRange ∧
    (popParams env st params).1.params = some st.search := by
  obtain ⟨f1, -, -, f4, f5⟩ := setDate_frame env
    { st with projectInput := orElse params.project st.config.defaults.project } params.date
  simp only [popParams, validateProject, h, if_true, Bool.false_eq_true, if_false]
  refine ⟨trivial, f1, trivial, ?_, trivial, trivial, ?_⟩
  · rw [f4] <;> rfl
  · rw [f5] <;> rfl

/-! ## Settled claims -/

set_option maxRecDepth 1000000

/-- C1: when `pageData` holds at least `offset + pageSize` entries whose title is not
excluded, `drawData` returns and the chart is exactly the first `offset + pageSize`
non-excluded entries in source order; the `i`-th row (from zero) shows rank `i + 1`;
the `data-article-id` of a row is the position of its entry in `pageData`, so
`pageNames` at that id is the row's title (the `done` callback of `initData` builds
`pageNames` from `pageData`); and the chart is a prefix of the chart drawn after the
next pagination expansion. -/
theorem drawData_renders_window (st : TopViews)
    (hNames : st.pageNames = st.pageData.map (fun page => page.article))
    (hEnough : st.offset + st.config.pageSize
      ≤ (st.pageData.filter (fun p => !st.excludes.contains p.article)).length) :
    ∃ st', drawData st = .ok st' ∧
      st'.chart.map (fun r => ({ article := r.article, views := r.views } : Page))
        = (st.pageData.filter (fun p => !st.excludes.contains p.article)).take
            (st.offset + st.config.pageSize) ∧
      (∀ (i : Nat) (h : i < st'.chart.length), (st'.chart[i]).rank = i + 1) ∧
      (∀ r ∈ st'.chart,
        st.pageData[r.articleId]? = some { article := r.article, views := r.views } ∧
        st.pageNames[r.articleId]? = some r.article) ∧
      (st'.chart.map Row.articleId).Pairwise (fun a b => a < b) ∧
      st'.chart <+: (expandChart st').state.chart ∧
      (∀ (s : TopViews) (articles : List Page),
        (initDataDone s articles).1.pageNames
          = (initDataDone s articles).1.pageData.map (fun page => page.article)) := by
  have hret : (drawData st).returned = true := by
    rw [drawData_returned]
    simpa [Nat.add_comm] using hEnough
  have hchart := drawData_chart st
  obtain ⟨hpd, -, hex, hoff, hcfg, -, -⟩ := drawData_frame st
  refine ⟨(drawData st).state, drawData_eq_ok st hret, ?_, ?_, ?_, ?_, ?_, ?_⟩
  · rw [hchart, List.map_take, rankedRows_pages, Nat.add_comm]
  · intro i h
    have h2 : i < (rankedRows st.pageData st.excludes).length := by
      rw [hchart, List.length_take] at h
      omega
    have := rankedRows_rank st.pageData st.excludes i h2
    simpa [hchart] using this
  · intro r hr
    rw [hchart] at hr
    have hm := rankedRows_mem st.pageData st.excludes r (List.mem_of_mem_take hr)
    refine ⟨hm.1, ?_⟩
    rw [hNames, List.getElem?_map, hm.1]
    rfl
  · rw [hchart, List.map_take]
    exact List.Pairwise.sublist (List.take_sublist _ _) (rankedRows_ids _ _)
  · have h2 := drawData_chart { (drawData st).state with
      offset := (drawData st).state.offset + (drawData st).state.config.pageSize }
    unfold expandChart
    rw [h2]
    simp only [hpd, hex, hoff, hcfg]
    rw [hchart]
    exact List.take_prefix_take_left _ (by omega)
  · intro s articles
    simp only [initDataDone]
    split <;> simp

/-- C1 at a freshly fetched ranking of 101 pages with no excludes. -/
theorem drawData_renders_window_witness :
    fetched.pageNames = fetched.pageData.map (fun page => page.article) ∧
    fetched.offset + fetched.config.pageSize
      ≤ (fetched.pageData.filter (fun p => !fetched.excludes.contains p.article)).length ∧
    ∃ st', drawData fetched = .ok st' ∧
      st'.chart.map (fun r => ({ article := r.article, views := r.views } : Page))
        = (fetched.pageData.filter (fun p => !fetched.excludes.contains p.article)).take
            (fetched.offset + fetched.config.pageSize) ∧
      (∀ (i : Nat) (h : i < st'.chart.length), (st'.chart[i]).rank = i + 1) ∧
      (∀ r ∈ st'.chart,
        fetched.pageData[r.articleId]? = some { article := r.article, views := r.views } ∧
        fetched.pageNames[r.articleId]? = some r.article) ∧
      (st'.chart.map Row.articleId).Pairwise (fun a b => a < b) ∧
      st'.chart <+: (expandChart st').state.chart ∧
      (∀ (s : TopViews) (articles : List Page),
        (initDataDone s articles).1.pageNames
          = (initDataDone s articles).1.pageData.map (fun page => page.article)) :=
  ⟨by decide, by decide, drawData_renders_window fetched (by decide) (by decide)⟩

/-- C2: on the scenario of the specification (`A 100, B 80, C 80, D 1`, `B` excluded,
page size 100, offset 0) `drawData` renders `(1, A, 100)`, `(2, C, 80)`, `(3, D, 1)` and
sets `max` to 100, but it does not stop at the end of `pageData`: with fewer than
`offset + pageSize` rows drawn it reads the entry after the last one and throws, so
it neither returns nor reaches `pushParams`. -/
theorem drawData_reads_past_end :
    drawData fourPages
      = .typeError { fourPages with
          max := some 100,
          chart := [{ articleId := 0, rank := 1, article := "A", views := 100 },
                    { articleId := 2, rank := 2, article := "C", views := 80 },
                    { articleId := 3, rank := 3, article := "D", views := 1 }] } ∧
    (drawData fourPages).returned = false := by
  decide

/-- C3: a page opened with the named range `yesterday` holds yesterday's date (14 June
2016) with the range flag set; `pushParams` then writes an empty `date` parameter,
because `getParams` reads `this.specialRange.range` while `setSpecialRange` stored
`true`; decoding what was written (`date` empty, `excludes` empty) selects the default
range `last-month` (5 May 2016): the named range is not restored. -/
theorem pushParams_loses_named_range :
    openedYesterday.specialRange = true ∧
    openedYesterday.datepicker = { year := 2016, month := 6, day := 14 } ∧
    (pushParams openedYesterday).search
      = "?project=en.wikipedia.org&platform=all-access&date=&excludes=" ∧
    (popParams june2016 (initial (pushParams openedYesterday).search openedYesterday.datepicker)
        { project := some "en.wikipedia.org", platform := some "all-access",
          date := some "", excludes := some [] }).1.datepicker
      = { year := 2016, month := 5, day := 5 } ∧
    (popParams june2016 (initial (pushParams openedYesterday).search openedYesterday.datepicker)
        { project := some "en.wikipedia.org", platform := some "all-access",
          date := some "", excludes := some [""] }).1.datepicker
      = { year := 2016, month := 5, day := 5 } := by
  decide

/-- C4: on the drawn ranking of 101 pages the query `(`, which is not a well-formed
pattern, makes `new RegExp(query, 'i')` throw inside the `forEach`: `searchTopviews`
does not return, the chart still holds the 100 rows of the window and the search
icon is unchanged, where the claim has the chart hold the entries that match.  The
query `J` on the same state shows the ten pages `j0` to `j9` with the ranks of the
whole ranking. -/
theorem searchTopviews_throws_on_malformed_query :
    (june2016.regExp "(" "i").isNone = true ∧
    searchTopviews june2016 { (drawData fetched).state with searchField := "(" }
      = .syntaxError { (drawData fetched).state with searchField := "(" } ∧
    (searchTopviews june2016
      { (drawData fetched).state with searchField := "(" }).returned = false ∧
    (searchTopviews june2016
      { (drawData fetched).state with searchField := "(" }).state.chart.length = 100 ∧
    (searchTopviews june2016
      { (drawData fetched).state with searchField := "(" }).state.chart.head?
        = some { articleId := 0, rank := 1, article := "a0", views := 1000 } ∧
    (searchTopviews june2016
      { (drawData fetched).state with searchField := "(" }).state.searchIconRemove = false ∧
    (searchTopviews june2016
      { (drawData fetched).state with searchField := "J" }).state.chart.length = 10 ∧
    (searchTopviews june2016
      { (drawData fetched).state with searchField := "J" }).state.chart.head?
        = some { articleId := 90, rank := 91, article := "j0", views := 910 } := by
  have hthrow := searchTopviews_malformed june2016
    { (drawData fetched).state with searchField := "(" } (by decide) rfl (by decide)
  refine ⟨by decide, hthrow, ?_, ?_, ?_, ?_, by decide, by decide⟩
  · rw [hthrow]; rfl
  · rw [hthrow]; decide
  · rw [hthrow]; decide
  · rw [hthrow]; decide

/-- The search on a query that compiles: `searchTopviews` returns, and its chart is the
dense ranking of the entire non-excluded sequence filtered by the match: the rows are
exactly the non-excluded entries whose title the expression (built with the flag
`i`) matches, in source order; each shows rank one plus the number of non-excluded
entries before it in `pageData`; a row that `drawData` renders for the same entry
(same `pageData`, same excludes, any offset) is the same row; the chart does not
depend on the offset, and the rank of an entry does not depend on the query. -/
theorem searchTopviews_ranks (env : Env) (st : TopViews) (test : String → Bool)
    (hq : st.searchField ≠ "") (hre : env.regExp st.searchField "i" = some test) :
    ∃ st', searchTopviews env st = .ok st' ∧
      st'.chart = (rankedRows st.pageData st.excludes).filter (fun r => test r.article) ∧
      st'.chart.map (fun r => ({ article := r.article, views := r.views } : Page))
        = st.pageData.filter (fun p => !st.excludes.contains p.article && test p.article) ∧
      (st'.chart.map Row.articleId).Pairwise (fun a b => a < b) ∧
      (∀ r ∈ st'.chart,
        st.pageData[r.articleId]? = some { article := r.article, views := r.views } ∧
        r.rank = 1 + ((st.pageData.take r.articleId).filter
            (fun p => !st.excludes.contains p.article)).length) ∧
      (∀ s2 : TopViews, s2.pageData = st.pageData → s2.excludes = st.excludes →
        ∀ r ∈ st'.chart, ∀ r' ∈ (drawData s2).state.chart,
          r'.articleId = r.articleId → r' = r) ∧
      (∀ s2 : TopViews, s2.pageData = st.pageData → s2.excludes = st.excludes →
        s2.searchField = st.searchField →
          (searchTopviews env s2).state.chart = st'.chart) ∧
      (∀ (s2 : TopViews) (test2 : String → Bool),
        s2.pageData = st.pageData → s2.excludes = st.excludes →
        s2.searchField ≠ "" → env.regExp s2.searchField "i" = some test2 →
        ∀ r ∈ st'.chart, ∀ r' ∈ (searchTopviews env s2).state.chart,
          r'.articleId = r.articleId → r'.rank = r.rank) := by
  have hsearch : ∀ (s : TopViews) (t : String → Bool), s.searchField ≠ "" →
      env.regExp s.searchField "i" = some t →
      searchTopviews env s = .ok { s with
        chart := (rankedRows s.pageData s.excludes).filter (fun r => t r.article),
        searchIconRemove := true } := by
    intro s t hs ht
    simp [searchTopviews, hs, searchLoop_eq env s.searchField s.excludes t ht,
      rankedRows_eq_rowsFrom]
  have hsub : ∀ (t : String → Bool) (r : Row),
      r ∈ (rankedRows st.pageData st.excludes).filter (fun r => t r.article) →
      r ∈ rankedRows st.pageData st.excludes := fun t r hr => (List.mem_filter.1 hr).1
  refine ⟨_, hsearch st test hq hre, rfl, ?_, ?_, ?_, ?_, ?_, ?_⟩
  · have h := List.filter_map (f := fun r : Row => ({ article := r.article, views := r.views } : Page))
      (p := fun p : Page => test p.article)
      (l := rankedRows st.pageData st.excludes)
    rw [rankedRows_pages, List.filter_filter] at h
    simp only [Function.comp_def] at h
    rw [← h]
    apply List.filter_congr
    intro p _
    exact Bool.and_comm _ _
  · exact List.Pairwise.sublist (List.Sublist.map _ (List.filter_sublist _)) (rankedRows_ids _ _)
  · intro r hr
    exact ⟨(rankedRows_mem _ _ r (hsub _ r hr)).1, rankedRows_rank_formula _ _ r (hsub _ r hr)⟩
  · intro s2 hpd hex r hr r' hr'
    rw [drawData_chart, hpd, hex] at hr'
    exact rankedRows_inj _ _ r r' (hsub _ r hr) (List.mem_of_mem_take hr')
  · intro s2 hpd hex hsf
    have hq2 : s2.searchField ≠ "" := by rw [hsf]; exact hq
    rw [hsearch s2 test hq2 (by rw [hsf]; exact hre)]
    simp [Outcome.state, hpd, hex]
  · intro s2 test2 hpd hex hq2 hre2 r hr r' hr' hid
    rw [hsearch s2 test2 hq2 hre2] at hr'
    simp only [Outcome.state, hpd, hex] at hr'
    rw [rankedRows_inj _ _ r r' (hsub _ r hr) (hsub _ r' hr') hid]

/-- The search at the drawn ranking of 101 pages with the query `J`: the ten pages `j0`
to `j9` are shown, the first with rank 91. -/
theorem searchTopviews_ranks_witness :
    ({ (drawData fetched).state with searchField := "J" } : TopViews).searchField ≠ "" ∧
    ∃ st', searchTopviews june2016 { (drawData fetched).state with searchField := "J" } = .ok st' ∧
      st'.chart.length = 10 ∧
      st'.chart.head? = some { articleId := 90, rank := 91, article := "j0", views := 910 } := by
  refine ⟨by decide, ?_⟩
  obtain ⟨st', h1, h2, -⟩ := searchTopviews_ranks june2016
    { (drawData fetched).state with searchField := "J" } (containsIgnoreCase "J") (by decide) rfl
  refine ⟨st', h1, ?_, ?_⟩
  · rw [h2]; decide
  · rw [h2]; decide

/-- C5: on an exclude list without duplicates, `addExclude` (for one title or a list of
titles, with or without the `change` event) keeps the existing titles as a prefix,
appends the titles not yet excluded, each once and in the order of their first
occurrence in the argument, and leaves a list without duplicates whose members are
the old excludes and the given titles; a second call with the same argument leaves
the list as the first call left it. -/
theorem addExclude_first_seen (st : TopViews) (pages : Pages) (trigger : Bool)
    (hnd : st.excludes.Nodup) :
    (addExclude st pages trigger).state.excludes
      = st.excludes
          ++ firstOccurrences (pages.toArray.filter (fun p => !st.excludes.contains p)) ∧
    st.excludes <+: (addExclude st pages trigger).state.excludes ∧
    List.Sublist (firstOccurrences (pages.toArray.filter (fun p => !st.excludes.contains p)))
      pages.toArray ∧
    (addExclude st pages trigger).state.excludes.Nodup ∧
    (∀ t, t ∈ (addExclude st pages trigger).state.excludes ↔ t ∈ st.excludes ∨ t ∈ pages.toArray) ∧
    (addExclude (addExclude st pages trigger).state pages trigger).state.excludes
      = (addExclude st pages trigger).state.excludes := by
  have hmem : ∀ t, t ∈ pushNew st.excludes pages.toArray ↔ t ∈ st.excludes ∨ t ∈ pages.toArray := by
    intro t
    rw [pushNew_eq, List.mem_append, mem_firstOccurrences, List.mem_filter]
    by_cases h : t ∈ st.excludes <;> simp [h]
  refine ⟨?_, ?_, ?_, ?_, ?_, ?_⟩
  · rw [addExclude_excludes, pushNew_eq]
  · rw [addExclude_excludes, pushNew_eq]
    exact List.prefix_append _ _
  · exact (firstOccurrences_sublist _).trans (List.filter_sublist _)
  · rw [addExclude_excludes, pushNew_eq]
    refine List.Nodup.append hnd (firstOccurrences_nodup _) ?_
    intro t ht ht2
    rw [mem_firstOccurrences, List.mem_filter] at ht2
    simp [ht] at ht2
  · intro t
    rw [addExclude_excludes]
    exact hmem t
  · rw [addExclude_excludes, addExclude_excludes, pushNew_eq (pages.toArray) (pushNew _ _)]
    have hnil : pages.toArray.filter
        (fun p => !(pushNew st.excludes pages.toArray).contains p) = [] := by
      rw [List.filter_eq_nil_iff]
      intro p hp
      have : p ∈ pushNew st.excludes pages.toArray := (hmem p).2 (Or.inr hp)
      simp [this]
    rw [hnil]
    simp [firstOccurrences]

/-- C5 at the exclude list `Main Page` and the argument `B, Main Page, A, B`. -/
theorem addExclude_first_seen_witness :
    (["Main Page"] : List String).Nodup ∧
    (addExclude { fourPages with excludes := ["Main Page"] }
        (.many ["B", "Main Page", "A", "B"]) true).state.excludes
      = ["Main Page", "B", "A"] := by
  refine ⟨by decide, ?_⟩
  rw [(addExclude_first_seen { fourPages with excludes := ["Main Page"] }
    (.many ["B", "Main Page", "A", "B"]) true (by decide)).1]
  decide

/-- C6: a well-formed response reports the requested page `constructor` as missing.
`normalizeMap` is a plain object, so `normalizeMap[title]` reads the member
`constructor` that it inherits from `Object.prototype`, and that member is pushed in
place of the title: `addExclude` is called with the main page and a value that is
not a string, where the claim has the title `constructor` added. -/
theorem filterByNamespace_pushes_inherited_member :
    (initDataDone opened (ranking 102)).1.excludes = [] ∧
    filterLoop 0
        [{ title := "Earth", ns := some 0, missing := none },
         { title := "constructor", ns := some 0, missing := some "" }]
        (normalizeMapOf []) [.string "Main Page"]
      = [.string "Main Page", .inherited "constructor"] ∧
    filterByNamespaceAlways (initDataDone opened (ranking 102)).1 0
        (.done (some prototypeResponse))
      = .nonString (initDataDone opened (ranking 102)).1
          [.string "Main Page", .inherited "constructor"] ∧
    seededExcludes [] [{ title := "Earth", ns := some 0, missing := none },
                       { title := "constructor", ns := some 0, missing := some "" }] "Main Page"
      = ["Main Page", "constructor"] := by
  refine ⟨by decide, by decide, ?_, by decide⟩
  rfl

/-- The namespace lookup on a response that carries `query.pages` and
`query.general.mainpage`, whose returned titles are distinct, whose flagged titles
name no member of `Object.prototype` and whose normalization entries have a
non-empty `from`, arriving while the exclude list is empty: `filterByNamespace`
leaves as exclude list the main page followed by the requested title of every
returned page that is outside namespace 0 or reported missing, each title once: the
requested title is the `from` of the normalization entry for the returned title,
else the returned title.  Nothing else is added, so when the requested titles are
titles of the ranking, every exclude other than the main page is a title of the
ranking. -/
theorem filterByNamespace_seeds_excludes (st : TopViews) (normalized : Option (List NormEntry))
    (pages : List PageInfo) (general : General)
    (hEmpty : st.excludes = [])
    (hTitles : (pages.map (fun p => p.title)).Nodup)
    (hFrom : ∀ e ∈ normalized.getD [], e.from_ ≠ "")
    (hProto : ∀ p ∈ pages, (p.ns ≠ some 0 ∨ p.missing = some "") →
      objectPrototypeKeys.contains p.title = false) :
    (filterByNamespaceAlways st 0
        (.done (some { normalized := normalized, pages := some pages, general := some general }))
      ).state.excludes = seededExcludes (normalized.getD []) pages general.mainpage ∧
    (seededExcludes (normalized.getD []) pages general.mainpage).head? = some general.mainpage ∧
    (seededExcludes (normalized.getD []) pages general.mainpage).Nodup ∧
    (∀ t, t ∈ seededExcludes (normalized.getD []) pages general.mainpage ↔
      t = general.mainpage ∨
      ∃ p ∈ pages, (p.ns ≠ some 0 ∨ p.missing = some "") ∧
        t = requestedTitle (normalized.getD []) p.title) ∧
    (∀ requested : List String,
      (∀ p ∈ pages, requestedTitle (normalized.getD []) p.title ∈ requested) →
      ∀ t ∈ seededExcludes (normalized.getD []) pages general.mainpage,
        t = general.mainpage ∨ t ∈ requested) := by
  have hmem : ∀ t, t ∈ seededExcludes (normalized.getD []) pages general.mainpage ↔
      t = general.mainpage ∨
      ∃ p ∈ pages, (p.ns ≠ some 0 ∨ p.missing = some "") ∧
        t = requestedTitle (normalized.getD []) p.title := by
    intro t
    unfold seededExcludes
    rw [mem_firstOccurrences, List.mem_cons, List.mem_map]
    constructor
    · rintro (h | ⟨p, hp, rfl⟩)
      · exact Or.inl h
      · rw [List.mem_filter] at hp
        refine Or.inr ⟨p, hp.1, ?_, rfl⟩
        simpa [flagged] using hp.2
    · rintro (h | ⟨p, hp, hf, rfl⟩)
      · exact Or.inl h
      · refine Or.inr ⟨p, List.mem_filter.2 ⟨hp, ?_⟩, rfl⟩
        simpa [flagged] using hf
  have hvalues : filterLoop 0 pages (normalizeMapOf (normalized.getD [])) [.string general.mainpage]
      = (general.mainpage :: (pages.filter flagged).map
          (fun p => requestedTitle (normalized.getD []) p.title)).map Value.string := by
    rw [filterLoop_eq 0 (normalizeMapOf (normalized.getD [])) pages _ _ hTitles (fun _ _ => rfl)]
    simp only [List.singleton_append, List.map_cons, List.map_map, List.cons.injEq, true_and]
    apply List.map_congr_left
    intro p hp
    rw [List.mem_filter] at hp
    have hflag : p.ns ≠ some 0 ∨ p.missing = some "" := by simpa using hp.2
    exact orTitle_getMember_eq _ _ hFrom (hProto p hp.1 hflag)
  refine ⟨?_, ?_, ?_, hmem, ?_⟩
  · simp only [filterByNamespaceAlways, Option.getD]
    simp only [Option.getD] at hvalues
    rw [hvalues, titlesOf_strings]
    simp only
    rw [addExclude_excludes, hEmpty, pushNew_nil]
    rfl
  · simp [seededExcludes, firstOccurrences]
  · exact firstOccurrences_nodup _
  · intro requested hreq t ht
    rcases (hmem t).1 ht with h | ⟨p, hp, -, rfl⟩
    · exact Or.inl h
    · exact Or.inr (hreq p hp)

/-- The namespace lookup at the scenario of the specification: only `Talk:X` lies
outside the main namespace, and the exclude list becomes the main page plus
`Talk:X`. -/
theorem filterByNamespace_seeds_excludes_witness :
    opened.excludes = [] ∧
    (filterByNamespaceAlways (initDataDone opened (ranking 102)).1 0
        (.done (some talkResponse))).state.excludes = ["Main Page", "Talk:X"] := by
  refine ⟨by decide, ?_⟩
  have hresp : talkResponse =
      { normalized := none,
        pages := some [{ title := "Earth", ns := some 0, missing := none },
                       { title := "Main Page", ns := some 0, missing := none },
                       { title := "Talk:X", ns := some 1, missing := none }],
        general := some { mainpage := "Main Page" } } := rfl
  rw [hresp]
  rw [(filterByNamespace_seeds_excludes (initDataDone opened (ranking 102)).1 none _
    { mainpage := "Main Page" } (by decide) (by decide) (by simp) (by decide)).1]
  decide

/-- The lookup on a response with a normalised title and a missing page: the title as
requested, not as returned, is excluded. -/
theorem filterByNamespace_normalized_example :
    (filterByNamespaceAlways (initDataDone opened (ranking 102)).1 0
        (.done (some normalizedResponse))).state.excludes = ["Main Page", "talk:x y", "Nope"] := by
  decide

/-- C7: the ranking of a page opened with an empty exclude list has arrived and the
namespace lookup fails on the network: the excludes stay empty and `pageData` is
stored, but the deferred of `initData` is never resolved, because the callback that
resolves it is attached with `done` to the request that `filterByNamespace` returns.
When the lookup succeeds with a response without `query` or without `query.pages`,
the deferred is resolved with the ranking. -/
theorem initData_unresolved_when_lookup_fails :
    opened.excludes = [] ∧
    (initData opened (.done (ranking 102)) .fail).2 = none ∧
    (initData opened (.done (ranking 102)) .fail).1.state.excludes = [] ∧
    (initData opened (.done (ranking 102)) .fail).1.state.pageData = ranking 102 ∧
    (initData opened (.done (ranking 102)) (.done none)).2 = some (ranking 102) ∧
    (initData opened (.done (ranking 102))
      (.done (some { normalized := none, pages := none, general := none }))).2
        = some (ranking 102) := by
  decide

/-- C8, as the code has it: the exclude added by a click on the remove button of the
first row changes the baseline.  After the first draw of a ranking led by `a0` with
1000 views `max` is 1000; after the click `max` is 999, the views of `a1`. -/
theorem max_changes_when_excluding :
    (drawData fetched).returned = true ∧
    (drawData fetched).state.max = some 1000 ∧
    (removeClick (drawData fetched).state 0).map (fun o => (o.returned, o.state.max))
      = some (true, some 999) := by
  decide

/-- C8, amended: once `max` holds a non-zero value, pagination expansion and search
(with any query, also the empty one that returns to the window) leave it unchanged;
the `change` listener of the exclude selector, which `addExclude` triggers once it
is attached, resets `max`, and the redraw sets it from the rows drawn under the new
exclude list, to the views of the first of them when those are not zero;
`resetView` resets it to `null`. -/
theorem max_kept_by_expand_and_search (env : Env) (st : TopViews) (m : Nat)
    (hmax : st.max = some m) (hpos : m ≠ 0) :
    (expandChart st).state.max = some m ∧
    (searchTopviews env st).state.max = some m ∧
    (clearSearch st).state.max = some m ∧
    (∀ val : List String,
      (articleSelectorChange st val).state.max
        = baseline none
            (((rankedRows st.pageData val).take (st.config.pageSize + st.offset)).map Row.views)) ∧
    (∀ (val : List String) (r : Row) (rest : List Row),
      rankedRows st.pageData val = r :: rest → r.views ≠ 0 → 0 < st.config.pageSize + st.offset →
      (articleSelectorChange st val).state.max = some r.views) ∧
    (∀ pages : Pages, st.selectorBound = true →
      (addExclude st pages true).state.max
        = baseline none
            (((rankedRows st.pageData (pushNew st.excludes pages.toArray)).take
              (st.config.pageSize + st.offset)).map Row.views)) ∧
    (∀ clearSelector : Bool, (resetView st clearSelector).max = none) := by
  have hclear : (clearSearch st).state.max = some m := by
    unfold clearSearch
    split
    · rw [drawData_max]
      simp [hmax, baseline_some m hpos]
    · exact hmax
  refine ⟨?_, ?_, hclear, ?_, ?_, ?_, ?_⟩
  · unfold expandChart
    rw [drawData_max]
    simp [hmax, baseline_some m hpos]
  · unfold searchTopviews
    split
    · exact hclear
    · split <;> exact hmax
  · intro val
    unfold articleSelectorChange
    rw [drawData_max]
  · intro val r rest hrows hv hlim
    unfold articleSelectorChange
    rw [drawData_max]
    simp only [hrows]
    obtain ⟨k, hk⟩ : ∃ k, st.config.pageSize + st.offset = k + 1 := ⟨_, (Nat.succ_pred_eq_of_pos hlim).symm⟩
    rw [hk, List.take_succ_cons, List.map_cons]
    exact baseline_none_cons r.views hv _
  · intro pages hb
    unfold addExclude
    simp only [hb, Bool.and_self, if_true]
    unfold articleSelectorChange
    rw [drawData_max]
  · intro clearSelector
    unfold resetView
    cases clearSelector <;> rfl

/-- C8, amended, at the drawn ranking of 101 pages, whose baseline is 1000. -/
theorem max_kept_by_expand_and_search_witness :
    (drawData fetched).state.max = some 1000 ∧ (1000 : Nat) ≠ 0 ∧
    (expandChart (drawData fetched).state).state.max = some 1000 ∧
    (searchTopviews june2016 { (drawData fetched).state with searchField := "j" }).state.max
      = some 1000 := by
  have h := max_kept_by_expand_and_search june2016 (drawData fetched).state 1000 (by decide)
    (by decide)
  have h2 := max_kept_by_expand_and_search june2016
    { (drawData fetched).state with searchField := "j" } 1000 (by decide) (by decide)
  exact ⟨by decide, by decide, h.1, h2.2.1⟩

/-- C9: two rendered states in which no field of the view has changed and an unforced
`processInput` still calls `resetView` and `initData`.  The first is the page opened
on the bare address: `popParams` stored the empty address as `this.params`, and
`drawData` then wrote the serialised state (with the excludes the namespace lookup
seeded) to the address bar.  The second is the page after a forced `processInput`
whose fetch seeded the excludes: `this.params` holds the address written before the
fetch, with no excludes.  In both the comparison of `location.search` with
`this.params` fails, the ranking is emptied and fetched again.  Once that fetch is
drawn the guard holds. -/
theorem processInput_refetches_unchanged_view :
    openedRendered.params = some "" ∧
    openedRendered.search = "?project=en.wikipedia.org&platform=all-access&date=&excludes=a0|a1" ∧
    openedRendered.chart.length = 100 ∧
    (processInput openedRendered false).2 = true ∧
    (processInput openedRendered false).1.pageData = [] ∧
    reloaded.params = some "?project=en.wikipedia.org&platform=desktop&date=&excludes=" ∧
    reloaded.search = "?project=en.wikipedia.org&platform=desktop&date=&excludes=a0|a1" ∧
    reloaded.excludes = ["a0", "a1"] ∧
    reloaded.chart.length = 100 ∧
    (processInput reloaded false).2 = true ∧
    (processInput reloaded false).1.pageData = [] ∧
    settled.params = some "?project=en.wikipedia.org&platform=all-access&date=&excludes=a0|a1" ∧
    (processInput settled false).2 = false := by
  refine ⟨by decide, by decide, by decide, by decide, by decide, by decide, by decide, by decide,
    by decide, by decide, by decide, settled_params, settled_guard⟩

/-- C10, as the code has it: on a rendered page with excludes `a0`, `a1` the platform is
changed from `all-access` to `desktop`; `processInput` starts a fetch, and the
exclude list is not emptied. -/
theorem processInput_keeps_excludes_on_platform_change :
    settled.params = some "?project=en.wikipedia.org&platform=all-access&date=&excludes=a0|a1" ∧
    (pushParams settled).search = "?project=en.wikipedia.org&platform=all-access&date=&excludes=a0|a1" ∧
    (pushParams { settled with platformSelector := "desktop" }).search
      = "?project=en.wikipedia.org&platform=desktop&date=&excludes=a0|a1" ∧
    (processInput { settled with platformSelector := "desktop" } false).2 = true ∧
    (processInput { settled with platformSelector := "desktop" } false).1.excludes = ["a0", "a1"] ∧
    (processInput { settled with platformSelector := "desktop" } false).1.offset = 0 := by
  decide

/-- C10, amended: whenever `processInput` starts a fetch the offset is reset to 0 and
the exclude list is left as it was, whatever differs from the last-applied state
(`resetView(false)` does not clear it; `resetView()` does); pagination expansion and
search do not change the exclude list. -/
theorem processInput_resets_offset_only (env : Env) (st : TopViews) (force : Bool)
    (hfetch : (processInput st force).2 = true) :
    (processInput st force).1.offset = 0 ∧
    (processInput st force).1.excludes = st.excludes ∧
    (resetView st false).excludes = st.excludes ∧
    (resetView st true).excludes = [] ∧
    (expandChart st).state.excludes = st.excludes ∧
    (searchTopviews env st).state.excludes = st.excludes := by
  have hclear : (clearSearch st).state.excludes = st.excludes := by
    unfold clearSearch
    split
    · rw [(drawData_frame _).2.2.1]
    · rfl
  refine ⟨?_, ?_, rfl, rfl, ?_, ?_⟩
  · unfold processInput at hfetch ⊢
    simp only at hfetch ⊢
    split at hfetch
    · simp at hfetch
    · rename_i h
      rw [if_neg h]
      rfl
  · unfold processInput
    simp only
    split <;> rfl
  · unfold expandChart
    rw [(drawData_frame _).2.2.1]
  · unfold searchTopviews
    split
    · exact hclear
    · split <;> rfl

/-- C10, amended, at the settled page expanded once (offset 100) whose platform is then
changed to `desktop`. -/
theorem processInput_resets_offset_only_witness :
    (processInput { (expandChart settled).state with platformSelector := "desktop" } false).2 = true ∧
    (expandChart settled).state.offset = 100 ∧
    (processInput { (expandChart settled).state with platformSelector := "desktop" } false).1.offset
      = 0 ∧
    (processInput { (expandChart settled).state with platformSelector := "desktop" } false).1.excludes
      = ["a0", "a1"] := by
  have h := processInput_resets_offset_only june2016
    { (expandChart settled).state with platformSelector := "desktop" } false (by decide)
  exact ⟨by decide, by decide, h.1, h.2.1.trans (by decide)⟩

/-- C11, as the code has it: `?project=bogus.org&platform=desktop&date=yesterday&excludes=A_B`
names a project outside the site registry; `popParams` stops at `validateProject`,
so the platform selector keeps `all-access`, the datepicker keeps its date and the
exclude list is empty: the platform and the excludes of the parameter map are not
decoded. -/
theorem popParams_stops_at_invalid_project :
    (popParams june2016 unopened bogusProject).2 = false ∧
    (popParams june2016 unopened bogusProject).1.projectInput = "bogus.org" ∧
    (popParams june2016 unopened bogusProject).1.platformSelector = "all-access" ∧
    (popParams june2016 unopened bogusProject).1.excludes = [] ∧
    (popParams june2016 unopened bogusProject).1.datepicker = unopened.datepicker := by
  decide

/-- C11, amended: when the project of the parameter map (the default project
`en.wikipedia.org` when it is missing or empty) is in the site registry, `popParams`
goes on to `initData` with the project input holding that project, the platform
selector holding `params.platform` when non-empty, whatever it is, and `all-access`
otherwise, the excludes empty when the parameter is missing or a single empty string
and otherwise the listed titles with underscores replaced by spaces, and the default
range `last-month` selected when the date is missing, or unparseable and no range
name.  When the project is not in the registry `popParams` returns after resetting
the view: platform and date are left as they were and the excludes are empty. -/
theorem popParams_decodes_with_defaults (env : Env) (st : TopViews) (params : QueryParams)
    (hcfg : st.config = config)
    (hvalid : env.siteDomains.contains (orElse params.project "en.wikipedia.org") = true) :
    (popParams env st params).2 = true ∧
    (∀ p, params.project = some p → p ≠ "" → (popParams env st params).1.projectInput = p) ∧
    (params.project = none ∨ params.project = some "" →
      (popParams env st params).1.projectInput = "en.wikipedia.org") ∧
    (∀ p, params.platform = some p → p ≠ "" →
      (popParams env st params).1.platformSelector = p) ∧
    (params.platform = none ∨ params.platform = some "" →
      (popParams env st params).1.platformSelector = "all-access") ∧
    (params.excludes = none ∨ params.excludes = some [""] →
      (popParams env st params).1.excludes = []) ∧
    (∀ es, params.excludes = some es → es ≠ [""] →
      (popParams env st params).1.excludes = es.map descore) ∧
    (params.date = none ∨
      (∃ d, params.date = some d ∧ env.dateParse d = none ∧ d ≠ "last-month" ∧ d ≠ "yesterday") →
      (popParams env st params).1.datepicker = env.lastMonth ∧
      (popParams env st params).1.specialRange = true) ∧
    (popParams env st params).1.params = some st.search ∧
    (∀ q : QueryParams,
      env.siteDomains.contains (orElse q.project "en.wikipedia.org") = false →
      (popParams env st q).2 = false ∧
      (popParams env st q).1.platformSelector = st.platformSelector ∧
      (popParams env st q).1.datepicker = st.datepicker ∧
      (popParams env st q).1.excludes = []) := by
  have hdef : st.config.defaults.project = "en.wikipedia.org" := by rw [hcfg]; rfl
  have hex : st.config.defaults.excludes = [] := by rw [hcfg]; rfl
  obtain ⟨h1, h2, h3, h4, h5, h6, h7⟩ :=
    popParams_valid_project env st params (by rw [hdef]; exact hvalid)
  rw [hdef] at h2 h5 h6
  rw [hex] at h4
  refine ⟨h1, ?_, ?_, ?_, ?_, ?_, ?_, ?_, h7, ?_⟩
  · intro p hp hne
    rw [h2, hp]
    exact orElse_some p _ hne
  · intro h
    rw [h2]
    exact orElse_default _ _ h
  · intro p hp hne
    rw [h3, hp]
    exact orElse_some p _ hne
  · intro h
    rw [h3]
    exact orElse_default _ _ h
  · intro h
    rw [h4]
    rcases h with h | h <;> simp [h]
  · intro es hes hne
    rw [h4, hes]
    cases es with
    | nil => rfl
    | cons e rest =>
      cases rest with
      | nil =>
        have hne2 : e ≠ "" := fun h => hne (by rw [h])
        simp [hne2]
      | cons e2 rest2 => rfl
  · intro h
    rw [h5, h6]
    exact setDate_default env _ params.date hcfg h
  · intro q hq
    have h := popParams_invalid_project env st q (by rw [hdef]; exact hq)
    exact ⟨h.1, h.2.2.1, h.2.2.2.1, h.2.2.2.2.2⟩

/-- C11, amended, at `?project=&platform=bogus`: the default project and the platform
`bogus`. -/
theorem popParams_decodes_with_defaults_witness :
    unopened.config = config ∧
    june2016.siteDomains.contains (orElse bogusPlatform.project "en.wikipedia.org") = true ∧
    (popParams june2016 unopened bogusPlatform).1.projectInput = "en.wikipedia.org" ∧
    (popParams june2016 unopened bogusPlatform).1.platformSelector = "bogus" ∧
    (popParams june2016 unopened bogusPlatform).1.excludes = [] ∧
    (popParams june2016 unopened bogusPlatform).1.datepicker
      = { year := 2016, month := 5, day := 5 } := by
  have h := popParams_decodes_with_defaults june2016 unopened bogusPlatform (by decide) (by decide)
  exact ⟨by decide, by decide, h.2.2.1 (Or.inr rfl), h.2.2.2.1 "bogus" rfl (by decide),
    h.2.2.2.2.2.1 (Or.inl rfl), (h.2.2.2.2.2.2.2.1 (Or.inl rfl)).1⟩

/-- C12, as the code has it: fetch A is started for platform `desktop`, the platform is
changed to `mobile-web` and fetch B is started.  When B completes first (ranking led
by `a5`, excludes `a5`, `a6`), the `done` callback of A's ranking request still replaces
`pageData` and `pageNames` by A's ranking (led by `a0`), and the view ends with A's
ranking under B's view state.  When A's callbacks run first, its namespace lookup
seeds the excludes `a0`, `a1`, so B's lookup is never issued and the view ends with
excludes that B alone would not have produced. -/
theorem stale_fetch_is_applied :
    startedB.platformSelector = "mobile-web" ∧
    startedB.excludes = [] ∧
    bAlone.pageData = rankingB ∧
    bAlone.pageNames.head? = some "a5" ∧
    bAlone.excludes = ["a5", "a6"] ∧
    (initDataDone bAlone (ranking 102)).1.pageData = ranking 102 ∧
    (initDataDone bAlone (ranking 102)).1.pageNames.head? = some "a0" ∧
    bThenA.pageData = ranking 102 ∧
    bThenA.platformSelector = "mobile-web" ∧
    (filterByNamespaceAlways (initDataDone startedB (ranking 102)).1 0
      (.done (some lookupResponse))).state.excludes = ["a0", "a1"] ∧
    aThenB.pageData = rankingB ∧
    aThenB.excludes = ["a0", "a1"] := by
  refine ⟨by decide, by decide, by decide, by decide, by decide, by decide, by decide,
    by decide, by decide, by decide, by decide, by decide⟩

/-- C12, amended: the completion callbacks of a fetch are applied to the state that is
current when they run, and nothing in them refers to the view state the fetch was
started for.  The `done` callback of a ranking request replaces `pageData` and
`pageNames` by its own ranking and leaves the excludes, so of two rankings the one
that arrives last stays.  The `always` callback of a namespace lookup with a
well-formed response adds its titles to the current exclude list and leaves
`pageData` and `pageNames` (a run in which a value that is not a string was pushed
is followed no further and counts as adding nothing). -/
theorem fetch_callbacks_apply_to_current_state (st : TopViews) (a b : List Page) (ns : Int)
    (normalized : Option (List NormEntry)) (pages : List PageInfo) (general : General) :
    (initDataDone st a).1.pageData
      = a.map (fun page => { page with article := descore page.article }) ∧
    (initDataDone st a).1.pageNames = a.map (fun page => descore page.article) ∧
    (initDataDone st a).1.excludes = st.excludes ∧
    (initDataDone (initDataDone st a).1 b).1.pageData = (initDataDone st b).1.pageData ∧
    (initDataDone (initDataDone st a).1 b).1.pageNames = (initDataDone st b).1.pageNames ∧
    (filterByNamespaceAlways st ns
        (.done (some { normalized := normalized, pages := some pages, general := some general }))
      ).state.excludes
      = pushNew st.excludes
          ((titlesOf (filterLoop ns pages (normalizeMapOf (normalized.getD []))
            [.string general.mainpage])).getD []) ∧
    (filterByNamespaceAlways st ns
        (.done (some { normalized := normalized, pages := some pages, general := some general }))
      ).state.pageData = st.pageData ∧
    (filterByNamespaceAlways st ns
        (.done (some { normalized := normalized, pages := some pages, general := some general }))
      ).state.pageNames = st.pageNames := by
  have hdone : ∀ (s : TopViews) (l : List Page),
      (initDataDone s l).1.pageData
        = l.map (fun page => { page with article := descore page.article }) ∧
      (initDataDone s l).1.pageNames = l.map (fun page => descore page.article) ∧
      (initDataDone s l).1.excludes = s.excludes := by
    intro s l
    simp only [initDataDone]
    split <;> simp [List.map_map, Function.comp_def]
  have hframe : ∀ (s : TopViews) (p : Pages),
      (addExclude s p true).state.pageData = s.pageData ∧
      (addExclude s p true).state.pageNames = s.pageNames := by
    intro s p
    unfold addExclude
    simp only
    split
    · unfold articleSelectorChange
      exact ⟨(drawData_frame _).1, (drawData_frame _).2.1⟩
    · exact ⟨rfl, rfl⟩
  refine ⟨(hdone st a).1, (hdone st a).2.1, (hdone st a).2.2, ?_, ?_, ?_, ?_, ?_⟩
  · rw [(hdone _ b).1, (hdone st b).1]
  · rw [(hdone _ b).2.1, (hdone st b).2.1]
  · simp only [filterByNamespaceAlways]
    split
    · rename_i titles h
      rw [addExclude_excludes, h]
      rfl
    · rename_i h
      rw [h]
      rfl
  · simp only [filterByNamespaceAlways]
    split
    · exact (hframe _ _).1
    · rfl
  · simp only [filterByNamespaceAlways]
    split
    · exact (hframe _ _).2
    · rfl

end Topviews
